import Mathlib

/-!
Shallow embedding of the thought-history state machine and its per-submission
enrichment pipeline from `src/index.ts` (class `SequentialThinkingServer`) of the
repository, together with proofs about the claims of the specification.

Modelling conventions:
* JavaScript numbers are modelled as `Int` (the tool input schema in
  `src/index.ts` declares every numeric field as `integer`), and the two places
  where the code performs real division (`progress` and the quality score
  averages) are computed in `ℚ`; for the integer-scale values involved the
  IEEE-754 doubles of the source are exact or far from every rounding boundary,
  so the rational model agrees with the source.
* JavaScript objects used as string-keyed maps (`this.branches`, `wordCounts`,
  the renderer's `branches`) are modelled as insertion-ordered association lists
  of their own properties, together with the two features of plain objects the
  source actually hits: reads fall through to `Object.prototype`, whose
  truthy members defeat the `if (!obj[key])` initialization guards and make the
  subsequent `.push` throw a `TypeError` (`protoNames`, `branchAppendEx`,
  `generateDependencyGraphEx`); and `Object.keys`/`Object.entries` enumerate
  array-index keys first in ascending numeric order before the remaining keys
  in insertion order (`jsEntries`). The `TypeError`/`RangeError` message texts
  are engine-defined; fixed strings stand in for them.
* The untyped tool payload is modelled by `RawInput`: the four fields inspected
  by `validateThoughtData` carry raw JS primitives (`JPrim`, with JS truthiness),
  the remaining fields are typed pass-through casts exactly as in the source.
* `try`/`catch` and `throw` are modelled with `Except String`; the analytics
  collaborators imported by `src/index.ts` from `./analytics/*` are not part of
  `src/`, so they appear as an abstract `Analytics` record of possibly-throwing
  stages and the theorems quantify over all of their behaviours.
* Console output (`console.error`) never affects state or response, so the
  strings assembled for it are not modelled; but two console-bound stages can
  throw — `groupThoughtsByBranch` inside the renderer on a prototype-named
  branch id, and `String.prototype.repeat` inside the progress bar on a
  negative count — and those throws are caught after the history append, so
  their control-flow effect is modelled (`generateDependencyGraphEx`,
  `createProgressBarEx`).
* For a token that names an `Object.prototype` property, the source's
  `(wordCounts[word] || 0) + 1` reads the truthy inherited function and
  concatenates strings, and the subsequent numeric sort comparator returns
  `NaN`, making the order implementation-defined; the frequency table is
  therefore modelled with numeric counts only, and the keyword-extraction
  characterization is stated for texts avoiding those tokens.
-/

namespace STS

/-- Raw JavaScript primitive values, as far as `validateThoughtData` inspects
them: strings, numbers, booleans and null. -/
inductive JPrim where
  | jstr (s : String)
  | jnum (n : Int)
  | jbool (b : Bool)
  | jnull
deriving DecidableEq, Repr

/-- JavaScript falsiness of a primitive: `""`, `0`, `false` and `null` are
falsy. -/
def JPrim.falsy : JPrim → Bool
  | .jstr s => s = ""
  | .jnum n => n = 0
  | .jbool b => b = false
  | .jnull => true

/-- The four thinking phases of the source (`'Planning' | 'Analysis' |
'Execution' | 'Verification'`). -/
inductive Phase where
  | Planning
  | Analysis
  | Execution
  | Verification
deriving DecidableEq, Repr

/-- Task complexity enum (`'simple' | 'medium' | 'complex'`). -/
inductive Complexity where
  | simple
  | medium
  | complex
deriving DecidableEq, Repr

/-- Thought status enum (`'complete' | 'in-progress' | 'needs-revision'`). -/
inductive TStatus where
  | complete
  | inProgress
  | needsRevision
deriving DecidableEq, Repr

/-- The `quality` record attached by `assessThoughtQuality`. -/
structure Quality where
  coherence : Int
  depth : Int
  relevance : Int
  qualityScore : Int
  feedback : List String
deriving DecidableEq, Repr

/-- One strategy recommendation of the intelligence maximization collaborator
(only the fields read by `src/index.ts`). -/
structure StrategyRec where
  strategyName : String
  description : String
deriving DecidableEq, Repr

/-- One reasoning-type recommendation of the intelligence maximization
collaborator (only the fields read by `src/index.ts`). -/
structure ReasoningRec where
  reasoningType : String
  description : String
deriving DecidableEq, Repr

/-- Intelligence maximization recommendations, as consumed by
`provideStrategicGuidance` and the response assembly. -/
structure Recs where
  strategies : List StrategyRec
  reasoningTypes : List ReasoningRec
  focusAreas : List String
deriving DecidableEq, Repr

/-- Modelled from the spec: `PromptMetadata` is produced by the upstream prompt
classifier (`./analytics/promptAnalyzer.ts`, absent from `src/`); this core only
passes it through to the analytics stages. Fields follow spec section 3. -/
structure PromptMetadata where
  goals : List String
  constraints : List String
  domains : List String
  taskType : String
  complexity : Complexity
  priority : String
  keywords : List String
deriving DecidableEq, Repr

/-- Result of the prompt alignment analyzer, as destructured by
`processThought`. -/
structure AlignmentData where
  promptAlignment : Int
  promptRelevance : List (String × ℚ)
  driftWarning : Option String
deriving DecidableEq, Repr

/-- The `ThoughtData` record of `src/types/ThoughtData.ts`, restricted to the
fields read or written by `src/index.ts`. -/
structure ThoughtData where
  thought : String
  thoughtNumber : Int
  totalThoughts : Int
  nextThoughtNeeded : Bool
  isRevision : Option Bool := none
  revisesThought : Option Int := none
  branchFromThought : Option Int := none
  branchId : Option String := none
  needsMoreThoughts : Option Bool := none
  phase : Option Phase := none
  dependencies : Option (List Int) := none
  toolsUsed : Option (List String) := none
  complexity : Option Complexity := none
  status : Option TStatus := none
  quality : Option Quality := none
  keywords : Option (List String) := none
  insightValue : Option Int := none
  classification : Option String := none
  confidenceScore : Option ℚ := none
  evidenceStrength : Option ℚ := none
  contradictions : Option (List String) := none
  promptAlignment : Option Int := none
  promptRelevance : Option (List (String × ℚ)) := none
  driftWarning : Option String := none
  intelligenceRecommendations : Option Recs := none
deriving DecidableEq, Repr

/-- The untyped payload handed to `processThought`. The four required fields are
raw primitives (checked by `validateThoughtData`); every other field is an
optionally-present typed cast, exactly as the source casts them without
checking. -/
structure RawInput where
  thought : Option JPrim := none
  thoughtNumber : Option JPrim := none
  totalThoughts : Option JPrim := none
  nextThoughtNeeded : Option JPrim := none
  isRevision : Option Bool := none
  revisesThought : Option Int := none
  branchFromThought : Option Int := none
  branchId : Option String := none
  needsMoreThoughts : Option Bool := none
  phase : Option Phase := none
  dependencies : Option (List Int) := none
  toolsUsed : Option (List String) := none
  complexity : Option Complexity := none
  status : Option TStatus := none
  quality : Option Quality := none
  keywords : Option (List String) := none
  insightValue : Option Int := none
  classification : Option String := none
  confidenceScore : Option ℚ := none
  evidenceStrength : Option ℚ := none
deriving DecidableEq, Repr

/-- `validateThoughtData` (src/index.ts lines 73-111): the submission is
accepted only if `thought` is a truthy string, `thoughtNumber` and
`totalThoughts` are truthy numbers, and `nextThoughtNeeded` is a boolean;
otherwise it throws the error for the first failing field. On success the
typed record is assembled, optional fields passed through as casts. -/
def validateThoughtData (input : RawInput) : Except String ThoughtData :=
  match input.thought with
  | some (.jstr s) =>
    if s = "" then .error "Invalid thought: must be a string"
    else
      match input.thoughtNumber with
      | some (.jnum n) =>
        if n = 0 then .error "Invalid thoughtNumber: must be a number"
        else
          match input.totalThoughts with
          | some (.jnum t) =>
            if t = 0 then .error "Invalid totalThoughts: must be a number"
            else
              match input.nextThoughtNeeded with
              | some (.jbool b) =>
                .ok { thought := s
                      thoughtNumber := n
                      totalThoughts := t
                      nextThoughtNeeded := b
                      isRevision := input.isRevision
                      revisesThought := input.revisesThought
                      branchFromThought := input.branchFromThought
                      branchId := input.branchId
                      needsMoreThoughts := input.needsMoreThoughts
                      phase := input.phase
                      dependencies := input.dependencies
                      toolsUsed := input.toolsUsed
                      complexity := input.complexity
                      status := input.status
                      quality := input.quality
                      keywords := input.keywords
                      insightValue := input.insightValue
                      classification := input.classification
                      confidenceScore := input.confidenceScore
                      evidenceStrength := input.evidenceStrength }
              | _ => .error "Invalid nextThoughtNeeded: must be a boolean"
          | _ => .error "Invalid totalThoughts: must be a number"
      | _ => .error "Invalid thoughtNumber: must be a number"
  | _ => .error "Invalid thought: must be a string"

/-- JavaScript `Math.round`: round half toward positive infinity. -/
def jsRound (q : ℚ) : Int := ⌊q + 1 / 2⌋

/-- Helper for `jsSplitWs`: walks the characters, collecting the current token
(reversed) and tracking whether the walker is inside a whitespace run; a token
is emitted on each transition into whitespace and at the end of the string.
This reproduces `String.prototype.split(/\s+/)` including the empty leading
token for strings starting with whitespace and the empty trailing token for
strings ending with whitespace. -/
def jsSplitWsAux : List Char → Bool → List Char → List String
  | [], _, cur => [String.mk cur.reverse]
  | c :: rest, inSep, cur =>
    if c.isWhitespace then
      if inSep then jsSplitWsAux rest true cur
      else String.mk cur.reverse :: jsSplitWsAux rest true []
    else jsSplitWsAux rest false (c :: cur)

/-- JavaScript `text.split(/\s+/)`, used for the word count in
`assessThoughtQuality` and for tokenization in `extractKeywords`. -/
def jsSplitWs (s : String) : List String := jsSplitWsAux s.data false []

/-- JavaScript `text.toLowerCase()`, modelled as the character-wise lowercase
map (the characters that survive the subsequent `\w` filter are all ASCII, on
which this agrees with the JS Unicode lowercasing). -/
def jsToLower (s : String) : String := String.mk (s.data.map Char.toLower)

/-- ASCII word character, the `\w` class of the source's regex (the regex has
no `u` flag, so `\w` is `[A-Za-z0-9_]`). -/
def isWordChar (c : Char) : Bool := c.isAlpha || c.isDigit || c = '_'

/-- JavaScript `text.replace(/[^\w\s]/g, '')`: drop every character that is
neither a word character nor whitespace. -/
def stripNonWord (s : String) : String :=
  String.mk (s.data.filter fun c => isWordChar c || c.isWhitespace)

/-- The fixed stopword list of `extractKeywords`. -/
def stopwords : List String := ["about", "above", "across", "after", "again"]

/-- The token pipeline of `extractKeywords`: lowercase, strip punctuation,
split on whitespace, keep tokens longer than 4 characters, drop stopwords. -/
def filteredWords (text : String) : List String :=
  (((jsSplitWs (stripNonWord (jsToLower text)))).filter fun w => 4 < w.length).filter
    fun w => ¬ stopwords.contains w

/-- One step of the frequency count: `wordCounts[word] = (wordCounts[word] || 0) + 1`
on an insertion-ordered own-property association list. Faithful for words that do
not name an `Object.prototype` property; for those the source reads the truthy
inherited function and concatenates an engine-defined string instead of
counting (see the module conventions), which the theorems hypothesize away. -/
def bumpCount (m : List (String × Nat)) (w : String) : List (String × Nat) :=
  if m.any (fun p => p.1 = w) then
    m.map fun p => if p.1 = w then (p.1, p.2 + 1) else p
  else m ++ [(w, 1)]

/-- The own-property frequency table of `extractKeywords`, in insertion
(first-occurrence) order; `Object.entries` then enumerates it in `jsEntries`
order. -/
def wordCounts (ws : List String) : List (String × Nat) := ws.foldl bumpCount []

/-- The comparison `(a, b) => b[1] - a[1]` of the source's sort: `p` sorts no
later than `q` when `q`'s count is at most `p`'s count. -/
def countGE (p q : String × Nat) : Prop := q.2 ≤ p.2

instance : DecidableRel countGE := fun p q => inferInstanceAs (Decidable (q.2 ≤ p.2))

instance : IsTotal (String × Nat) countGE := ⟨fun p q => le_total q.2 p.2⟩

instance : IsTrans (String × Nat) countGE := ⟨fun _ _ _ h h2 => le_trans h2 h⟩

/-- Numeric value of a decimal digit string. -/
def digitsVal (l : List Char) : Nat :=
  l.foldl (fun acc c => acc * 10 + (c.toNat - 48)) 0

/-- A canonical array-index property key of a JS object: the decimal
representation (no leading zero) of an integer below `2^32 - 1`.
`Object.keys`/`Object.entries` enumerate own properties with such keys first,
in ascending numeric order, before the remaining string keys in insertion
order (ES2015 `[[OwnPropertyKeys]]`). -/
def isArrayIndex (s : String) : Bool :=
  !s.data.isEmpty && s.data.all (·.isDigit) &&
    (s == "0" || s.data.headD '0' != '0') && digitsVal s.data ≤ 4294967294

/-- Ascending numeric order on array-index keys, for the enumeration-order
sort of `jsEntries`. -/
def idxLE {α : Type _} (p q : String × α) : Prop :=
  digitsVal p.1.data ≤ digitsVal q.1.data

instance {α : Type _} : DecidableRel (idxLE (α := α)) := fun p q =>
  inferInstanceAs (Decidable (digitsVal p.1.data ≤ digitsVal q.1.data))

instance {α : Type _} : IsTotal (String × α) idxLE := ⟨fun _ _ => le_total _ _⟩

instance {α : Type _} : IsTrans (String × α) idxLE := ⟨fun _ _ _ h h2 => le_trans h h2⟩

/-- `Object.keys`/`Object.entries` enumeration order over an insertion-ordered
own-property table: array-index keys in ascending numeric order first, then the
remaining keys in insertion order. Distinct index keys have distinct numeric
values, so the stable sort by value is exactly the ascending enumeration. -/
def jsEntries {α : Type _} (m : List (String × α)) : List (String × α) :=
  List.insertionSort idxLE (m.filter fun p => isArrayIndex p.1) ++
    (m.filter fun p => !isArrayIndex p.1)

/-- `extractKeywords` (src/index.ts lines 598-617): tokenize, count,
enumerate the table in `Object.entries` order (`jsEntries`), stable-sort by
descending frequency (`Array.prototype.sort` is stable per ES2019; modelled
by the stable `List.insertionSort`), take the first five, return the words.
The numeric-count table is faithful for texts none of whose tokens names an
`Object.prototype` property; for such a token the source's count value is an
engine-defined concatenated string and the sort order implementation-defined
(see the module conventions), so the theorems about this function hypothesize
those tokens away. -/
def extractKeywords (text : String) : List String :=
  ((List.insertionSort countGE (jsEntries (wordCounts (filteredWords text)))).take 5).map (·.1)

/-- Feedback string pushed when a thought past the first has no
dependencies. -/
def connectsFeedback : String := "Consider how this thought connects to previous thinking"

/-- Feedback string pushed for thoughts of fewer than 30 words. -/
def depthFeedback : String := "This thought could be explored in more depth"

/-- Feedback string pushed when still planning after thought 3. -/
def planningFeedback : String := "Consider moving from planning to execution"

/-- `assessThoughtQuality` (src/index.ts lines 170-223). Coherence, depth and
relevance start at 5; coherence is raised by the dependency count (capped at 8)
or dropped to 3 for a disconnected non-first thought; depth is 3 below 30 words
and 8 above 100; relevance drops to 4 when still planning after thought 3;
`qualityScore` is the rounded mean and `insightValue` the rounded weighted sum
with a 1.2 bonus for connected thoughts. The source mutates its argument; the
model returns the updated record. -/
def assessThoughtQuality (t : ThoughtData) : ThoughtData :=
  let coherencePair : Int × List String :=
    match t.dependencies with
    | some ds =>
      if 0 < ds.length then (min 8 (5 + (ds.length : Int)), [])
      else if 1 < t.thoughtNumber then (3, [connectsFeedback]) else (5, [])
    | none => if 1 < t.thoughtNumber then (3, [connectsFeedback]) else (5, [])
  let coherence := coherencePair.1
  let wordCount := (jsSplitWs t.thought).length
  let depthPair : Int × List String :=
    if wordCount < 30 then (3, [depthFeedback])
    else if 100 < wordCount then (8, []) else (5, [])
  let depth := depthPair.1
  let relevancePair : Int × List String :=
    if t.phase = some Phase.Planning ∧ 3 < t.thoughtNumber then (4, [planningFeedback])
    else (5, [])
  let relevance := relevancePair.1
  let feedback := coherencePair.2 ++ depthPair.2 ++ relevancePair.2
  let qualityScore := jsRound (((coherence + depth + relevance : Int) : ℚ) / 3)
  let hasDeps : Bool := match t.dependencies with
    | some ds => ds.length != 0
    | none => false
  let insight := jsRound
    (((depth : ℚ) * (4 / 10) + (coherence : ℚ) * (3 / 10) + (relevance : ℚ) * (3 / 10)) *
      (if hasDeps then 12 / 10 else 1))
  { t with
    quality := some { coherence := coherence, depth := depth, relevance := relevance,
                      qualityScore := qualityScore, feedback := feedback }
    insightValue := some insight }

/-- `detectSemanticRelationships` (src/index.ts lines 561-596): with at least
two thoughts in history, extract the new thought's keywords, collect every
prior thought sharing at least two keywords whose sequence number is not
already a declared dependency, and append those numbers to the dependency
list. The source mutates its argument; the model returns the updated record. -/
def detectSemanticRelationships (history : List ThoughtData) (newThought : ThoughtData) :
    ThoughtData :=
  if history.length < 2 then newThought
  else
    let keywords := extractKeywords newThought.thought
    let newThought := { newThought with keywords := some keywords }
    let semanticConnections :=
      (history.filter fun previous =>
        match previous.keywords with
        | none => false
        | some pk =>
          2 ≤ (pk.filter fun kw => keywords.contains kw).length ∧
            ¬ (newThought.dependencies.getD []).contains previous.thoughtNumber).map
        (·.thoughtNumber)
    if 0 < semanticConnections.length then
      { newThought with
        dependencies := some (newThought.dependencies.getD [] ++ semanticConnections) }
    else newThought

/-- `provideStrategicGuidance` (src/index.ts lines 225-255). -/
def provideStrategicGuidance (t : ThoughtData) : List String :=
  let progress : ℚ := (t.thoughtNumber : ℚ) / (t.totalThoughts : ℚ)
  (if 3 / 4 < progress ∧ t.phase ≠ some Phase.Verification then
    ["Consider transitioning to the Verification phase to validate your solution"]
  else []) ++
  (match t.promptAlignment with
   | some a =>
     if a < 5 then
       ["This thought has low alignment with the original prompt. Consider revising to better address the prompt's goals"]
     else []
   | none => []) ++
  (match t.intelligenceRecommendations with
   | some r =>
     (match r.strategies with
      | s :: _ =>
        ["Try using the \"" ++ s.strategyName ++ "\" strategy: " ++ s.description]
      | [] => []) ++
     (match r.reasoningTypes with
      | rt :: _ =>
        ["Consider using " ++ rt.reasoningType ++ " reasoning: " ++ rt.description]
      | [] => [])
   | none => [])

/-- The analytics collaborators used by `processThought`
(`./analytics/contradictionDetector.ts`, `./analytics/promptAnalyzer.ts`,
`./analytics/intelligenceMaximizationModule.ts`). Modelled from the spec:
those modules are imported by `src/index.ts` but are not under `src/`, so each
stage is an opaque, possibly-throwing function and the theorems hold for every
behaviour. -/
structure Analytics where
  checkContradictions : ThoughtData → List ThoughtData → Except String (Bool × List String)
  analyzeThoughtAlignment : String → PromptMetadata → Except String AlignmentData
  generateRecommendations :
    PromptMetadata → Int → Int → Option Phase → Except String Recs

/-- The mutable server state: thought history, branch index (insertion-ordered
map from branch id to its thoughts) and the prompt-context singleton. -/
structure ServerState where
  thoughtHistory : List ThoughtData := []
  branches : List (String × List ThoughtData) := []
  promptMetadata : Option PromptMetadata := none
deriving DecidableEq, Repr

/-- Look a branch bucket up by id (`this.branches[branchId]`). -/
def branchLookup (bs : List (String × List ThoughtData)) (b : String) :
    Option (List ThoughtData) :=
  (bs.find? fun p => p.1 = b).map (·.2)

/-- The successful branch-bucket update (src/index.ts lines 364-367): append to
the existing bucket, or create a singleton bucket. This is the value
`branchAppendEx` produces whenever the source's update does not throw. -/
def branchAppend (bs : List (String × List ThoughtData)) (b : String) (t : ThoughtData) :
    List (String × List ThoughtData) :=
  if bs.any fun p => p.1 = b then
    bs.map fun p => if p.1 = b then (p.1, p.2 ++ [t]) else p
  else bs ++ [(b, [t])]

/-- The own property names of `Object.prototype`. A plain object literal such
as `this.branches` (src/index.ts line 29) or the renderer's `branches`
(src/visualization/graphRenderer.ts line 290) inherits a truthy value at each
of these keys — a function, or for `__proto__` the prototype object itself —
so the source's `if (!obj[key])` initialization guard is skipped and the
subsequent `.push` call throws a `TypeError`. -/
def protoNames : List String :=
  ["constructor", "hasOwnProperty", "isPrototypeOf", "propertyIsEnumerable",
   "toLocaleString", "toString", "valueOf", "__defineGetter__", "__defineSetter__",
   "__lookupGetter__", "__lookupSetter__", "__proto__"]

/-- The branch-bucket update of src/index.ts lines 364-367 with the prototype
chain of the plain object `this.branches` modelled: an own bucket shadows the
prototype and is pushed to; for a missing key that names an `Object.prototype`
property the guard `if (!this.branches[branchId])` reads the truthy inherited
value, skips initialization, and `.push` on that value throws a `TypeError`
(the engine message text is implementation-defined; a fixed string stands in
for it); otherwise the bucket is created. -/
def branchAppendEx (bs : List (String × List ThoughtData)) (b : String) (t : ThoughtData) :
    Except String (List (String × List ThoughtData)) :=
  if bs.any fun p => p.1 = b then
    .ok (bs.map fun p => if p.1 = b then (p.1, p.2 ++ [t]) else p)
  else if protoNames.contains b then
    .error "TypeError: this.branches[validatedInput.branchId].push is not a function"
  else .ok (bs ++ [(b, [t])])

/-- Whether a stored record's `branchId` is truthy and names an
`Object.prototype` property — the condition under which the renderer's
`groupThoughtsByBranch` throws on that record. -/
def protoBranchId (t : ThoughtData) : Bool :=
  match t.branchId with
  | some b => b ≠ "" && protoNames.contains b
  | none => false

/-- `graphRenderer.generateDependencyGraph` (src/visualization/graphRenderer.ts
lines 14-63), invoked on the full post-append history at src/index.ts line 371.
Its rendered string goes only to `console.error`, so the model keeps exactly
its effect on control flow: `groupThoughtsByBranch` (graphRenderer.ts lines
289-302) folds every stored thought with a truthy `branchId` into a plain
object, and for an id naming an `Object.prototype` property the
`if (!branches[thought.branchId])` guard reads the truthy inherited value,
skips initialization and throws a `TypeError` on `.push`. Every other step of
the renderer — the `Map`-based thought lookup, the number-keyed adjacency
list, the string assembly — is total. -/
def generateDependencyGraphEx (thoughts : List ThoughtData) : Except String Unit :=
  if thoughts.any protoBranchId then
    .error "TypeError: branches[thought.branchId].push is not a function"
  else .ok ()

/-- `createProgressBar` (src/index.ts lines 428-435), with
`completed = Math.floor(width * (percentage / 100))` for `width = 20` and
`percentage = (n / t) * 100`, i.e. `completed = ⌊20·n/t⌋` (`Int.fdiv` is floor
division). Its bar string goes only to the console, but
`'█'.repeat(completed)` and `'░'.repeat(20 - completed)` throw a `RangeError`
whenever their count is negative, so the call throws exactly when `completed`
lies outside `[0, 20]`; only that control-flow effect is modelled. -/
def createProgressBarEx (n t : Int) : Except String Unit :=
  let completed := (20 * n).fdiv t
  if completed < 0 ∨ 20 - completed < 0 then .error "RangeError: Invalid count value"
  else .ok ()

/-- `estimateComplexity` (src/index.ts lines 531-543), reading the state as it
is when the response is assembled. -/
def estimateComplexity (st : ServerState) : Complexity :=
  let thoughtCount := st.thoughtHistory.length
  let revisionCount := (st.thoughtHistory.filter fun t => t.isRevision = some true).length
  let branchCount := st.branches.length
  if 10 < thoughtCount ∨ 2 < branchCount then .complex
  else if 5 < thoughtCount ∨ 1 < revisionCount ∨ 0 < branchCount then .medium
  else .simple

/-- The JSON success payload of `processThought` (src/index.ts lines 389-413). -/
structure OkPayload where
  thoughtNumber : Int
  totalThoughts : Int
  nextThoughtNeeded : Bool
  branches : List String
  phase : Option Phase
  complexity : Complexity
  progress : String
  strategicGuidance : List String
  promptAlignment : Option Int
  driftWarning : Option String
  recommendations : Option Recs
deriving DecidableEq, Repr

/-- The result of one submission: the success payload, or the
`{error, status: "failed"}` object produced by the `catch` block. -/
inductive Response where
  | ok (r : OkPayload)
  | error (msg : String)
deriving DecidableEq, Repr

/-- The JSON success payload assembled at src/index.ts lines 389-413, reading
the post-storage state `st2`; the `branches` field is `Object.keys`, i.e. the
keys in `jsEntries` enumeration order. -/
def mkPayload (st2 : ServerState) (vd : ThoughtData) : OkPayload :=
  { thoughtNumber := vd.thoughtNumber
    totalThoughts := vd.totalThoughts
    nextThoughtNeeded := vd.nextThoughtNeeded
    branches := (jsEntries st2.branches).map (·.1)
    phase := vd.phase
    complexity := vd.complexity.getD (estimateComplexity st2)
    progress := toString (jsRound ((vd.thoughtNumber : ℚ) / (vd.totalThoughts : ℚ) * 100)) ++ "%"
    strategicGuidance := ((provideStrategicGuidance vd).take 2).take 2
    promptAlignment := vd.promptAlignment
    driftWarning := vd.driftWarning
    recommendations := vd.intelligenceRecommendations.map fun r =>
      { strategies := r.strategies.take 1
        reasoningTypes := r.reasoningTypes.take 1
        focusAreas := r.focusAreas.take 1 } }

/-- The stages after the history append and branch handling (src/index.ts
lines 371-413): the renderer runs on the full post-append history and throws
on a prototype-named truthy branch id anywhere in it; then the progress bar
throws on a percentage outside `[0, 100]`; either throw is caught by the
submission boundary with the mutations already applied, so this stage carries
the mutated state `st2` into the error result. -/
def renderAndRespond (st2 : ServerState) (vd : ThoughtData) : ServerState × Response :=
  match generateDependencyGraphEx st2.thoughtHistory with
  | .error e => (st2, .error e)
  | .ok _ =>
    match createProgressBarEx vd.thoughtNumber vd.totalThoughts with
    | .error e => (st2, .error e)
    | .ok _ => (st2, .ok (mkPayload st2 vd))

/-- Storage and response assembly (src/index.ts lines 359-413): the record is
appended to the history first (line 360); then, when both `branchFromThought`
and `branchId` are truthy, the branch bucket is updated (lines 363-368) — a
`TypeError` there is caught with the record already in the history — then the
renderer and the progress bar run; any later throw likewise keeps every
mutation made so far. -/
def storeAndRespond (st : ServerState) (vd : ThoughtData) : ServerState × Response :=
  let st1 : ServerState := { st with thoughtHistory := st.thoughtHistory ++ [vd] }
  match vd.branchFromThought, vd.branchId with
  | some f, some b =>
    if f ≠ 0 ∧ b ≠ "" then
      match branchAppendEx st1.branches b vd with
      | .error e => (st1, .error e)
      | .ok bs => renderAndRespond { st1 with branches := bs } vd
    else renderAndRespond st1 vd
  | _, _ => renderAndRespond st1 vd

/-- Auto-adjustment of `totalThoughts` (src/index.ts lines 307-310): when the
submitted number exceeds the declared total, the total is raised to the
number. -/
def adjustTotal (vd : ThoughtData) : ThoughtData :=
  if vd.totalThoughts < vd.thoughtNumber then { vd with totalThoughts := vd.thoughtNumber }
  else vd

/-- Default phase assignment (src/index.ts lines 312-318): when no phase was
supplied, thought 1 defaults to Planning and every other thought to
Execution. -/
def defaultPhase (vd : ThoughtData) : ThoughtData :=
  match vd.phase with
  | some _ => vd
  | none =>
    { vd with phase := some (if vd.thoughtNumber = 1 then Phase.Planning else Phase.Execution) }

/-- Keyword enrichment (src/index.ts line 321). -/
def setKeywords (vd : ThoughtData) : ThoughtData :=
  { vd with keywords := some (extractKeywords vd.thought) }

/-- Contradiction enrichment (src/index.ts lines 323-331): the details are
recorded only when contradictions were found. -/
def setContradictions (vd : ThoughtData) (c : Bool × List String) : ThoughtData :=
  if c.1 then { vd with contradictions := some c.2 } else vd

/-- Alignment enrichment (src/index.ts lines 337-345). -/
def setAlignment (vd : ThoughtData) (a : AlignmentData) : ThoughtData :=
  { vd with
    promptAlignment := some a.promptAlignment
    promptRelevance := some a.promptRelevance
    driftWarning := a.driftWarning }

/-- Recommendation enrichment (src/index.ts lines 347-355). -/
def setRecommendations (vd : ThoughtData) (r : Recs) : ThoughtData :=
  { vd with intelligenceRecommendations := some r }

/-- The pre-storage enrichment pipeline (src/index.ts lines 307-357):
total-thoughts auto-adjustment, default phase, keyword extraction,
contradiction check, prompt alignment and recommendations when the prompt
context is initialized. Any `throw` from an analytics stage propagates as
`Except.error` before the history is touched. -/
def enrichThought (A : Analytics) (st : ServerState) (vd0 : ThoughtData) :
    Except String ThoughtData :=
  let vd3 := setKeywords (defaultPhase (adjustTotal vd0))
  match A.checkContradictions vd3 st.thoughtHistory with
  | .error e => .error e
  | .ok contradictions =>
    let vd4 := setContradictions vd3 contradictions
    match st.promptMetadata with
    | none => .ok vd4
    | some pm =>
      match A.analyzeThoughtAlignment vd4.thought pm with
      | .error e => .error e
      | .ok alignmentData =>
        let vd5 := setAlignment vd4 alignmentData
        match A.generateRecommendations pm vd5.thoughtNumber vd5.totalThoughts vd5.phase with
        | .error e => .error e
        | .ok recs => .ok (setRecommendations vd5 recs)

/-- `processThought` (src/index.ts lines 303-426): validate and enrich, then
store and respond; every exception is caught at this boundary and turned into
the structured error response. A throw before the history append (validation
or an analytics stage) leaves the state untouched; a throw after it (branch
bucket `TypeError`, renderer `TypeError`, progress-bar `RangeError`) is caught
with the mutations already persisted, which `storeAndRespond` reflects by
carrying the mutated state into the error result. -/
def processThought (A : Analytics) (st : ServerState) (input : RawInput) :
    ServerState × Response :=
  match (validateThoughtData input).bind (enrichThought A st) with
  | .ok vd => storeAndRespond st vd
  | .error e => (st, .error e)

/-- Analytics instance whose stages all succeed with neutral values, used to
run the pipeline on concrete inputs. -/
def trivialAnalytics : Analytics where
  checkContradictions := fun _ _ => .ok (false, [])
  analyzeThoughtAlignment := fun _ _ =>
    .ok { promptAlignment := 5, promptRelevance := [], driftWarning := none }
  generateRecommendations := fun _ _ _ _ =>
    .ok { strategies := [], reasoningTypes := [], focusAreas := [] }

/-- The server state at construction time: empty history, no branches, prompt
context not yet initialized. -/
def initState : ServerState := {}

/-! ### Keyword extraction: spec-side characterization -/

/-- Distinct elements of a list in order of first occurrence. -/
def firstOccs (ws : List String) : List String :=
  ws.foldl (fun acc w => if w ∈ acc then acc else acc ++ [w]) []

/-- Largest count occurring in a frequency table. -/
def maxCount (entries : List (String × Nat)) : Nat :=
  entries.foldl (fun acc p => max acc p.2) 0

/-- Grouping formulation of a stable descending sort, following the spec's
words: for each frequency from the highest down, the entries of that frequency
in their original order. -/
def groupDesc (entries : List (String × Nat)) : List (String × Nat) :=
  ((List.range (maxCount entries + 1)).reverse).flatMap fun c =>
    entries.filter fun p => p.2 = c

/-- Keyword extraction as the amended claim phrases it: the distinct filtered
tokens, each with its frequency, enumerated as `Object.entries` does —
array-index (all-digit) tokens in ascending numeric order first, then the
remaining tokens in first-occurrence order — and ranked by descending
frequency with ties broken by that enumeration order, truncated to the
top 5. -/
def extractKeywordsSpec (text : String) : List String :=
  let tokens := filteredWords text
  ((groupDesc (jsEntries ((firstOccs tokens).map fun w => (w, tokens.count w)))).take 5).map
    (·.1)

/-- Keyword extraction with the tie-break claim C8 states: distinct filtered
tokens ranked by descending frequency with ties broken purely by
first-occurrence order. Refuted by all-digit tokens, which `Object.entries`
enumerates first in ascending numeric order regardless of insertion order. -/
def extractKeywordsFirstOcc (text : String) : List String :=
  let tokens := filteredWords text
  ((groupDesc ((firstOccs tokens).map fun w => (w, tokens.count w))).take 5).map (·.1)


/-! ### Helper definitions, claim-side predicates and concrete runs -/

instance : Inhabited ThoughtData :=
  ⟨{ thought := "", thoughtNumber := 0, totalThoughts := 0, nextThoughtNeeded := false }⟩

instance : Inhabited OkPayload :=
  ⟨{ thoughtNumber := 0, totalThoughts := 0, nextThoughtNeeded := false, branches := [],
     phase := none, complexity := .simple, progress := "", strategicGuidance := [],
     promptAlignment := none, driftWarning := none, recommendations := none }⟩

/-- Whether a response is the success payload. -/
def Response.isOk : Response → Bool
  | .ok _ => true
  | .error _ => false

/-- The payload of a successful response (default payload on error). -/
def Response.payloadD : Response → OkPayload
  | .ok r => r
  | .error _ => default

/-- Analytics instance whose first stage throws, exercising the submission
boundary's `catch` on an internal pipeline failure. -/
def throwingAnalytics : Analytics where
  checkContradictions := fun _ _ => .error "contradiction stage failure"
  analyzeThoughtAlignment := fun _ _ => .error "alignment stage failure"
  generateRecommendations := fun _ _ _ _ => .error "recommendation stage failure"

/-- The numeric progress value of the response for submitted number `n` and
declared total `T`: the percentage is computed on the auto-adjusted total. -/
def respProgress (n T : Int) : Int :=
  jsRound ((n : ℚ) / ((max T n : Int) : ℚ) * 100)

/-- The `thought` field check of the validator: present, a string, truthy. -/
def validStringField (v : Option JPrim) : Prop :=
  ∃ s, v = some (.jstr s) ∧ s ≠ ""

/-- The numeric field check of the validator: present, a number, truthy. -/
def validNumberField (v : Option JPrim) : Prop :=
  ∃ n, v = some (.jnum n) ∧ n ≠ 0

/-- The `nextThoughtNeeded` check of the validator: present and boolean. -/
def validBoolField (v : Option JPrim) : Prop :=
  ∃ b, v = some (.jbool b)

/-- Formalizes the claim-C2 session invariant over a stored history: after
every accepted submission, the running declared total (the stored record's
`totalThoughts`) is at least every sequence number seen so far. -/
def sessionTotalsDominate (hist : List ThoughtData) : Bool :=
  (List.range hist.length).all fun i =>
    ((hist.take (i + 1)).map fun t => t.thoughtNumber).all fun s =>
      s ≤ (hist.getD i default).totalThoughts

/-- Formalizes the claim-C2 monotonicity sentence: the stored declared totals
are non-decreasing across the session. -/
def totalsMonotone (hist : List ThoughtData) : Bool :=
  let totals := hist.map fun t => t.totalThoughts
  (totals.zip totals.tail).all fun p => p.1 ≤ p.2

/-- Formalizes the claim-C6 sentence: every stored record with `branchId` set
appears in exactly one branch bucket. -/
def inExactlyOneBucket (st : ServerState) : Bool :=
  st.thoughtHistory.all fun t =>
    match t.branchId with
    | some _ => (st.branches.filter fun p => p.2.contains t).length = 1
    | none => true

/-- Formalizes the claim-C7 sentence over stored records: whenever a stored
thought shares at least two extracted keywords with a prior stored thought,
the prior thought's sequence number is in its dependency set. -/
def semanticLinksRecorded (hist : List ThoughtData) : Bool :=
  (List.range hist.length).all fun j =>
    (List.range j).all fun i =>
      let tj := hist.getD j default
      let ti := hist.getD i default
      if 2 ≤ ((ti.keywords.getD []).filter fun kw => (tj.keywords.getD []).contains kw).length
      then (tj.dependencies.getD []).contains ti.thoughtNumber
      else true

/-- The claim-C1 scenario thought: number 2 of 5, ten words, no
dependencies. -/
def c1Thought : ThoughtData :=
  { thought := "alpha beta gamma delta epsilon zeta eta theta iota kappa"
    thoughtNumber := 2
    totalThoughts := 5
    nextThoughtNeeded := true }

/-- The claim-C1 scenario as a raw submission. -/
def c1Input : RawInput :=
  { thought := some (.jstr "alpha beta gamma delta epsilon zeta eta theta iota kappa")
    thoughtNumber := some (.jnum 2)
    totalThoughts := some (.jnum 5)
    nextThoughtNeeded := some (.jbool true) }

def c1run : ServerState × Response := processThought trivialAnalytics initState c1Input

def c1resp : OkPayload := c1run.2.payloadD

/-- First submission of the claim-C2 counterexample: thought 5 of 5. -/
def c2In1 : RawInput :=
  { thought := some (.jstr "first"), thoughtNumber := some (.jnum 5)
    totalThoughts := some (.jnum 5), nextThoughtNeeded := some (.jbool true) }

/-- Second submission of the claim-C2 counterexample: thought 2 of 2,
declaring a smaller total than the sequence numbers already seen. -/
def c2In2 : RawInput :=
  { thought := some (.jstr "second"), thoughtNumber := some (.jnum 2)
    totalThoughts := some (.jnum 2), nextThoughtNeeded := some (.jbool true) }

def c2st1 : ServerState := (processThought trivialAnalytics initState c2In1).1

def c2st2 : ServerState := (processThought trivialAnalytics c2st1 c2In2).1

/-- Witness submission for the per-record auto-raise: thought 5 with declared
total 2. -/
def c2wInput : RawInput :=
  { thought := some (.jstr "raise the total"), thoughtNumber := some (.jnum 5)
    totalThoughts := some (.jnum 2), nextThoughtNeeded := some (.jbool true) }

def c2wrun : ServerState × Response := processThought trivialAnalytics initState c2wInput

def c2wresp : OkPayload := c2wrun.2.payloadD

/-- Claim-C3 input with every required field missing. -/
def c3InA : RawInput := {}

/-- Claim-C3 input with a mistyped `thoughtNumber`. -/
def c3InB : RawInput :=
  { thought := some (.jstr "valid thought"), thoughtNumber := some (.jstr "two") }

/-- Claim-C3 input with a falsy `totalThoughts`. -/
def c3InC : RawInput :=
  { thought := some (.jstr "valid thought"), thoughtNumber := some (.jnum 2)
    totalThoughts := some (.jnum 0) }

/-- Claim-C3 scenario input: `nextThoughtNeeded` omitted, everything else
valid. -/
def c3InD : RawInput :=
  { thought := some (.jstr "valid thought"), thoughtNumber := some (.jnum 2)
    totalThoughts := some (.jnum 5) }

/-- A valid submission used to probe the boundary on an internal stage
throw. -/
def c4Input : RawInput :=
  { thought := some (.jstr "crash probe"), thoughtNumber := some (.jnum 2)
    totalThoughts := some (.jnum 5), nextThoughtNeeded := some (.jbool true) }

/-- A valid submission whose `branchId` names an `Object.prototype` property:
the branch-bucket update throws after the history append. -/
def c4pInput : RawInput :=
  { thought := some (.jstr "branch clash probe"), thoughtNumber := some (.jnum 3)
    totalThoughts := some (.jnum 5), nextThoughtNeeded := some (.jbool true)
    branchFromThought := some 2, branchId := some "constructor" }

def c4pRun : ServerState × Response := processThought trivialAnalytics initState c4pInput

/-- The claim-C5 scenario: thought 6 with declared total 5. -/
def c5Input : RawInput :=
  { thought := some (.jstr "sixth step"), thoughtNumber := some (.jnum 6)
    totalThoughts := some (.jnum 5), nextThoughtNeeded := some (.jbool true) }

def c5run : ServerState × Response := processThought trivialAnalytics initState c5Input

def c5resp : OkPayload := c5run.2.payloadD

/-- Claim-C6 counterexample input: `branchId` set but no `branchFromThought`. -/
def c6BadInput : RawInput :=
  { thought := some (.jstr "branch idea"), thoughtNumber := some (.jnum 2)
    totalThoughts := some (.jnum 5), nextThoughtNeeded := some (.jbool true)
    branchId := some "alt" }

def c6BadState : ServerState := (processThought trivialAnalytics initState c6BadInput).1

/-- The claim-C6 scenario input: `branchFromThought = 2`, `branchId = "alt"`. -/
def c6GoodInput : RawInput :=
  { thought := some (.jstr "branch idea"), thoughtNumber := some (.jnum 2)
    totalThoughts := some (.jnum 5), nextThoughtNeeded := some (.jbool true)
    branchFromThought := some 2, branchId := some "alt" }

def c6grun : ServerState × Response := processThought trivialAnalytics initState c6GoodInput

def c6gresp : OkPayload := c6grun.2.payloadD

/-- An enriched record with truthy branch fields and a prototype-named
`branchId`, for the storage-stage part of the corrected claim C6. -/
def c6pThought : ThoughtData :=
  { thought := "prototype-named branch", thoughtNumber := 3, totalThoughts := 5
    nextThoughtNeeded := true, branchFromThought := some 2
    branchId := some "constructor", phase := some Phase.Execution }

/-- First submission of the claim-C7 counterexample run. -/
def c7In1 : RawInput :=
  { thought := some (.jstr "apple banana"), thoughtNumber := some (.jnum 1)
    totalThoughts := some (.jnum 5), nextThoughtNeeded := some (.jbool true) }

/-- Second submission of the claim-C7 counterexample run. -/
def c7In2 : RawInput :=
  { thought := some (.jstr "lemon melon"), thoughtNumber := some (.jnum 2)
    totalThoughts := some (.jnum 5), nextThoughtNeeded := some (.jbool true) }

/-- Third submission of the claim-C7 counterexample run: shares the keywords
`apple` and `banana` with the first stored thought, declares no
dependencies. -/
def c7In3 : RawInput :=
  { thought := some (.jstr "apple banana again"), thoughtNumber := some (.jnum 3)
    totalThoughts := some (.jnum 5), nextThoughtNeeded := some (.jbool true) }

def c7stB : ServerState :=
  (processThought trivialAnalytics (processThought trivialAnalytics initState c7In1).1 c7In2).1

def c7st : ServerState := (processThought trivialAnalytics c7stB c7In3).1

def c7resp : OkPayload := (processThought trivialAnalytics c7stB c7In3).2.payloadD

/-- A stored prior thought (with its pipeline-attached keywords) for the
claim-C7 witness of `detectSemanticRelationships`. -/
def c7prev : ThoughtData :=
  { thought := "apple banana", thoughtNumber := 1, totalThoughts := 5
    nextThoughtNeeded := true, keywords := some ["apple", "banana"] }

/-- A second stored prior thought for the claim-C7 witness. -/
def c7prev2 : ThoughtData :=
  { thought := "lemon melon", thoughtNumber := 2, totalThoughts := 5
    nextThoughtNeeded := true, keywords := some ["lemon", "melon"] }

/-- The new thought of the claim-C7 witness: two keywords shared with
`c7prev`. -/
def c7new : ThoughtData :=
  { thought := "apple banana fresh", thoughtNumber := 3, totalThoughts := 5
    nextThoughtNeeded := true }

/-- The claim-C9 scenario input: thought 1 of 5. -/
def c9Input : RawInput :=
  { thought := some (.jstr "Plan the approach to sort a list")
    thoughtNumber := some (.jnum 1), totalThoughts := some (.jnum 5)
    nextThoughtNeeded := some (.jbool true) }

def c9run : ServerState × Response := processThought trivialAnalytics initState c9Input

def c9resp : OkPayload := c9run.2.payloadD

/-- A valid submission omitting `complexity`, for claim C10. -/
def c10Input : RawInput :=
  { thought := some (.jstr "estimate complexity probe")
    thoughtNumber := some (.jnum 1), totalThoughts := some (.jnum 3)
    nextThoughtNeeded := some (.jbool true) }

def c10run : ServerState × Response := processThought trivialAnalytics initState c10Input

def c10resp : OkPayload := c10run.2.payloadD

/-! ### Decomposition lemmas for the pipeline -/

/-- A successful validation forces the four required fields to be present,
correctly typed and truthy, and passes every other field through unchanged. -/
theorem validateThoughtData_ok {input : RawInput} {vd : ThoughtData}
    (h : validateThoughtData input = .ok vd) :
    (input.thought = some (.jstr vd.thought) ∧ vd.thought ≠ "") ∧
    (input.thoughtNumber = some (.jnum vd.thoughtNumber) ∧ vd.thoughtNumber ≠ 0) ∧
    (input.totalThoughts = some (.jnum vd.totalThoughts) ∧ vd.totalThoughts ≠ 0) ∧
    input.nextThoughtNeeded = some (.jbool vd.nextThoughtNeeded) ∧
    vd.isRevision = input.isRevision ∧
    vd.branchFromThought = input.branchFromThought ∧
    vd.branchId = input.branchId ∧
    vd.phase = input.phase ∧
    vd.dependencies = input.dependencies ∧
    vd.complexity = input.complexity ∧
    vd.quality = input.quality ∧
    vd.keywords = input.keywords ∧
    vd.promptAlignment = none ∧
    vd.intelligenceRecommendations = none := by
  unfold validateThoughtData at h
  repeat' split at h
  all_goals try exact Except.noConfusion h
  rw [Except.ok.injEq] at h
  subst h
  simp_all

/-- Relation between the validated record and the record actually stored: the
enrichment stages raise the total to the max with the sequence number, default
the phase, and leave the structural fields (text, numbers, quality,
dependencies, branch data, revision flag, complexity) unchanged. -/
def EnrichedFrom (vd0 vd : ThoughtData) : Prop :=
  vd.thought = vd0.thought ∧
  vd.thoughtNumber = vd0.thoughtNumber ∧
  vd.totalThoughts = max vd0.totalThoughts vd0.thoughtNumber ∧
  vd.nextThoughtNeeded = vd0.nextThoughtNeeded ∧
  vd.quality = vd0.quality ∧
  vd.dependencies = vd0.dependencies ∧
  vd.branchFromThought = vd0.branchFromThought ∧
  vd.branchId = vd0.branchId ∧
  vd.isRevision = vd0.isRevision ∧
  vd.complexity = vd0.complexity ∧
  vd.phase = some (vd0.phase.getD
    (if vd0.thoughtNumber = 1 then Phase.Planning else Phase.Execution))

/-- The three unconditional enrichment stages produce a record enriched from
the validated input. -/
theorem enrichedFrom_base (vd0 : ThoughtData) :
    EnrichedFrom vd0 (setKeywords (defaultPhase (adjustTotal vd0))) := by
  unfold EnrichedFrom setKeywords defaultPhase adjustTotal
  split <;> split <;> simp_all <;> omega

/-- Contradiction enrichment preserves `EnrichedFrom`. -/
theorem enrichedFrom_setContradictions {vd0 vd : ThoughtData} (c : Bool × List String)
    (h : EnrichedFrom vd0 vd) : EnrichedFrom vd0 (setContradictions vd c) := by
  unfold setContradictions
  split <;> exact h

/-- Alignment enrichment preserves `EnrichedFrom`. -/
theorem enrichedFrom_setAlignment {vd0 vd : ThoughtData} (a : AlignmentData)
    (h : EnrichedFrom vd0 vd) : EnrichedFrom vd0 (setAlignment vd a) := h

/-- Recommendation enrichment preserves `EnrichedFrom`. -/
theorem enrichedFrom_setRecommendations {vd0 vd : ThoughtData} (r : Recs)
    (h : EnrichedFrom vd0 vd) : EnrichedFrom vd0 (setRecommendations vd r) := h

/-- A successful run of the pre-storage pipeline produces a record enriched
from the validated input. -/
theorem enrichThought_ok {A : Analytics} {st : ServerState} {vd0 vd : ThoughtData}
    (h : enrichThought A st vd0 = .ok vd) : EnrichedFrom vd0 vd := by
  simp only [enrichThought] at h
  repeat' split at h
  all_goals try exact Except.noConfusion h
  all_goals rw [Except.ok.injEq] at h
  all_goals subst h
  · exact enrichedFrom_setContradictions _ (enrichedFrom_base vd0)
  · exact enrichedFrom_setRecommendations _ (enrichedFrom_setAlignment _
      (enrichedFrom_setContradictions _ (enrichedFrom_base vd0)))

/-- A non-throwing branch-bucket update produces exactly the `branchAppend`
value. -/
theorem branchAppendEx_ok {bs : List (String × List ThoughtData)} {b : String}
    {t : ThoughtData} {bs' : List (String × List ThoughtData)}
    (h : branchAppendEx bs b t = .ok bs') : bs' = branchAppend bs b t := by
  unfold branchAppendEx at h
  unfold branchAppend
  split at h
  next hmem =>
    rw [if_pos hmem, Except.ok.injEq] at *
    exact h.symm
  next hmem =>
    split at h
    · exact Except.noConfusion h
    · rw [if_neg hmem, Except.ok.injEq] at *
      exact h.symm

/-- Every result of the storage stage — success or caught post-storage error —
has the record appended to the history and the prompt metadata unchanged. -/
theorem storeAndRespond_history (st : ServerState) (vd : ThoughtData) :
    (storeAndRespond st vd).1.thoughtHistory = st.thoughtHistory ++ [vd] ∧
    (storeAndRespond st vd).1.promptMetadata = st.promptMetadata := by
  simp only [storeAndRespond, renderAndRespond]
  repeat' split
  all_goals exact ⟨rfl, rfl⟩

/-- A successful response from the storage stage: the record was appended to
the history, the branch bucket updated exactly when both branch fields are
set and truthy, the prompt metadata untouched, and the payload assembled from
the post-storage state. -/
theorem storeAndRespond_ok {st : ServerState} {vd : ThoughtData} {st' : ServerState}
    {r : OkPayload} (h : storeAndRespond st vd = (st', Response.ok r)) :
    st'.thoughtHistory = st.thoughtHistory ++ [vd] ∧
    st'.branches = (match vd.branchFromThought, vd.branchId with
      | some f, some b =>
        if f ≠ 0 ∧ b ≠ "" then branchAppend st.branches b vd else st.branches
      | _, _ => st.branches) ∧
    st'.promptMetadata = st.promptMetadata ∧
    r = mkPayload st' vd := by
  simp only [storeAndRespond, renderAndRespond] at h
  repeat' split at h
  all_goals try (injection h with h1 h2; exact Response.noConfusion h2)
  all_goals injection h with h1 h2
  all_goals injection h2 with h2
  all_goals subst h1
  all_goals subst h2
  all_goals refine ⟨rfl, ?_, rfl, rfl⟩
  all_goals try split
  all_goals try rfl
  all_goals try simp_all
  all_goals exact branchAppendEx_ok (by assumption)

/-- A submission whose response is the success payload decomposes into a
successful validation, the enrichment relation and a successful storage
stage. -/
theorem processThought_ok {A : Analytics} {st : ServerState} {input : RawInput}
    {st' : ServerState} {r : OkPayload}
    (h : processThought A st input = (st', Response.ok r)) :
    ∃ vd0 vd : ThoughtData, validateThoughtData input = .ok vd0 ∧ EnrichedFrom vd0 vd ∧
      storeAndRespond st vd = (st', Response.ok r) := by
  unfold processThought at h
  split at h
  next vd heq =>
    cases hv : validateThoughtData input with
    | error e => rw [hv] at heq; exact Except.noConfusion heq
    | ok vd0 =>
      rw [hv] at heq
      simp only [Except.bind] at heq
      exact ⟨vd0, vd, rfl, enrichThought_ok heq, h⟩
  next e heq =>
    injection h with h1 h2
    exact Response.noConfusion h2

/-- A branch lookup misses exactly when no bucket carries the key. -/
theorem branchLookup_none_iff (bs : List (String × List ThoughtData)) (b : String) :
    branchLookup bs b = none ↔ (bs.any fun p => p.1 = b) = false := by
  unfold branchLookup
  constructor
  · intro h
    rw [← Bool.not_eq_true, List.any_eq_true]
    rintro ⟨x, hx, hpx⟩
    rw [Option.map_eq_none', List.find?_eq_none] at h
    exact absurd hpx (by simpa using h x hx)
  · intro h
    have hfind : bs.find? (fun p => p.1 = b) = none := by
      rw [List.find?_eq_none]
      intro x hx hpx
      rw [← Bool.not_eq_true] at h
      exact h (List.any_eq_true.mpr ⟨x, hx, hpx⟩)
    rw [hfind]
    rfl

/-- `jsEntries` is a permutation of the own-property table: membership is
preserved by the enumeration reorder. -/
theorem mem_jsEntries {α : Type _} (m : List (String × α)) (p : String × α) :
    p ∈ jsEntries m ↔ p ∈ m := by
  unfold jsEntries
  rw [List.mem_append, (List.perm_insertionSort _ _).mem_iff, List.mem_filter, List.mem_filter]
  by_cases hp : isArrayIndex p.1 <;> simp [hp]

/-- The bucket-update map of `branchAppend` does not disturb `find?` at a
different key. -/
theorem find?_upd_of_ne (bs : List (String × List ThoughtData)) (b b' : String)
    (t : ThoughtData) (hne : b' ≠ b) :
    (bs.map fun p => if p.1 = b then (p.1, p.2 ++ [t]) else p).find? (fun p => p.1 = b') =
      bs.find? (fun p => p.1 = b') := by
  induction bs with
  | nil => rfl
  | cons q qs ih =>
    by_cases hq : q.1 = b
    · have hq' : ¬ q.1 = b' := fun hc => hne (hc.symm.trans hq)
      simp [hq, hq', Ne.symm hne, ih]
    · by_cases hq' : q.1 = b' <;> simp [hq, hq', hne, Ne.symm hne, ih]

/-- The bucket-update map of `branchAppend` sends `find?` at the updated key to
the updated entry. -/
theorem find?_upd_self (bs : List (String × List ThoughtData)) (b : String) (t : ThoughtData) :
    (bs.map fun p => if p.1 = b then (p.1, p.2 ++ [t]) else p).find? (fun p => p.1 = b) =
      (bs.find? (fun p => p.1 = b)).map fun p => (p.1, p.2 ++ [t]) := by
  induction bs with
  | nil => rfl
  | cons q qs ih =>
    by_cases hq : q.1 = b
    · simp [hq]
    · simp [hq, ih]

/-- Appending to a branch bucket updates the looked-up bucket by appending the
record (creating a singleton bucket when the id is new). -/
theorem branchLookup_branchAppend_self (bs : List (String × List ThoughtData)) (b : String)
    (t : ThoughtData) :
    branchLookup (branchAppend bs b t) b = some ((branchLookup bs b).getD [] ++ [t]) := by
  unfold branchAppend branchLookup
  by_cases hmem : bs.any fun q => q.1 = b
  · rw [if_pos hmem, find?_upd_self]
    have hsome : (bs.find? fun p => p.1 = b).isSome := by
      rw [List.find?_isSome]
      obtain ⟨x, hx, hpx⟩ := List.any_eq_true.mp hmem
      exact ⟨x, hx, hpx⟩
    obtain ⟨p, hp⟩ := Option.isSome_iff_exists.mp hsome
    simp [hp]
  · rw [if_neg hmem]
    have hnone : (bs.find? fun p => p.1 = b) = none := by
      rw [List.find?_eq_none]
      intro x hx
      exact fun hpx => hmem (List.any_eq_true.mpr ⟨x, hx, hpx⟩)
    simp [List.find?_append, hnone]

/-- Appending to one branch bucket leaves every other bucket unchanged. -/
theorem branchLookup_branchAppend_other (bs : List (String × List ThoughtData)) (b b' : String)
    (t : ThoughtData) (hne : b' ≠ b) :
    branchLookup (branchAppend bs b t) b' = branchLookup bs b' := by
  unfold branchAppend branchLookup
  by_cases hmem : bs.any fun q => q.1 = b
  · rw [if_pos hmem, find?_upd_of_ne bs b b' t hne]
  · rw [if_neg hmem]
    simp [List.find?_append, Ne.symm hne]

/-- After appending, the branch id is among the keys of the branch index. -/
theorem mem_keys_branchAppend (bs : List (String × List ThoughtData)) (b : String)
    (t : ThoughtData) : b ∈ (branchAppend bs b t).map (·.1) := by
  unfold branchAppend
  by_cases hmem : bs.any fun q => q.1 = b
  · rw [if_pos hmem]
    have hkeys : (bs.map fun p => if p.1 = b then (p.1, p.2 ++ [t]) else p).map (·.1) =
        bs.map (·.1) := by
      rw [List.map_map]
      refine List.map_congr_left ?_
      intro p _
      by_cases hp : p.1 = b <;> simp [hp]
    rw [hkeys]
    obtain ⟨x, hx, hpx⟩ := List.any_eq_true.mp hmem
    exact of_decide_eq_true hpx ▸ List.mem_map_of_mem _ hx
  · rw [if_neg hmem]
    simp

theorem mem_foldl_firstOccs (ws : List String) (acc : List String) (x : String) :
    x ∈ ws.foldl (fun acc w => if w ∈ acc then acc else acc ++ [w]) acc ↔
      x ∈ acc ∨ x ∈ ws := by
  induction ws generalizing acc with
  | nil => simp
  | cons w ws ih =>
    rw [List.foldl_cons, ih]
    by_cases hw : w ∈ acc
    · rw [if_pos hw]
      constructor
      · rintro (h | h)
        · exact Or.inl h
        · exact Or.inr (List.mem_cons_of_mem _ h)
      · rintro (h | h)
        · exact Or.inl h
        · rcases List.mem_cons.mp h with rfl | h2
          · exact Or.inl hw
          · exact Or.inr h2
    · rw [if_neg hw]
      constructor
      · rintro (h | h)
        · rcases List.mem_append.mp h with h2 | h2
          · exact Or.inl h2
          · exact Or.inr (by rw [List.mem_singleton.mp h2]; exact List.mem_cons_self w ws)
        · exact Or.inr (List.mem_cons_of_mem _ h)
      · rintro (h | h)
        · exact Or.inl (List.mem_append.mpr (Or.inl h))
        · rcases List.mem_cons.mp h with rfl | h2
          · exact Or.inl (List.mem_append.mpr (Or.inr (List.mem_singleton.mpr rfl)))
          · exact Or.inr h2

theorem mem_firstOccs {ws : List String} {x : String} : x ∈ firstOccs ws ↔ x ∈ ws := by
  simpa using mem_foldl_firstOccs ws [] x

theorem firstOccs_append (ws : List String) (w : String) :
    firstOccs (ws ++ [w]) = if w ∈ ws then firstOccs ws else firstOccs ws ++ [w] := by
  unfold firstOccs
  rw [List.foldl_append]
  simp only [List.foldl_cons, List.foldl_nil]
  by_cases hw : w ∈ ws
  · rw [if_pos (show w ∈ ws.foldl _ [] from mem_firstOccs.mpr hw), if_pos hw]
  · rw [if_neg (show w ∉ ws.foldl _ [] from fun hc => hw (mem_firstOccs.mp hc)), if_neg hw]

theorem wordCounts_append (ws : List String) (w : String) :
    wordCounts (ws ++ [w]) = bumpCount (wordCounts ws) w := by
  unfold wordCounts
  rw [List.foldl_append]
  rfl

/-- The insertion-ordered frequency table is the list of distinct tokens in
first-occurrence order, each paired with its total count. -/
theorem wordCounts_eq (ws : List String) :
    wordCounts ws = (firstOccs ws).map fun w => (w, ws.count w) := by
  induction ws using List.reverseRecOn with
  | nil => rfl
  | append_singleton ws w ih =>
    rw [wordCounts_append, ih, firstOccs_append]
    by_cases hw : w ∈ ws
    · rw [if_pos hw]
      unfold bumpCount
      rw [if_pos (List.any_eq_true.mpr
        ⟨(w, ws.count w),
          List.mem_map_of_mem (fun x => (x, ws.count x)) (mem_firstOccs.mpr hw), by simp⟩)]
      rw [List.map_map]
      refine List.map_congr_left fun x hx => ?_
      by_cases hxw : x = w
      · subst hxw
        simp [List.count_append]
      · simp [Function.comp, hxw, List.count_append, List.count_cons]
    · rw [if_neg hw]
      have hno : ¬ ((firstOccs ws).map fun x => (x, ws.count x)).any
          (fun p => p.1 = w) = true := by
        rw [List.any_eq_true]
        rintro ⟨p, hp, hpw⟩
        obtain ⟨x, hx, rfl⟩ := List.mem_map.mp hp
        exact hw ((of_decide_eq_true hpw : x = w) ▸ mem_firstOccs.mp hx)
      unfold bumpCount
      rw [if_neg hno, List.map_append]
      congr 1
      · refine List.map_congr_left fun x hx => ?_
        have hxw : x ≠ w := fun hc => hw (hc ▸ mem_firstOccs.mp hx)
        simp [List.count_append, List.count_cons, hxw]
      · simp [List.count_append, List.count_eq_zero.mpr hw]

/-- A list sorted by descending count is determined by its per-count filters:
this is the uniqueness of stable sorting. -/
theorem sorted_filter_unique :
    ∀ {s1 s2 : List (String × Nat)}, List.Sorted countGE s1 → List.Sorted countGE s2 →
      (∀ c, s1.filter (fun p => p.2 = c) = s2.filter (fun p => p.2 = c)) → s1 = s2 := by
  intro s1
  induction s1 with
  | nil =>
    intro s2 _ _ hf
    cases s2 with
    | nil => rfl
    | cons q t2 =>
      have h := hf q.2
      rw [List.filter_nil, List.filter_cons_of_pos (by simp)] at h
      exact absurd h (by simp)
  | cons p t1 ih =>
    intro s2 hs1 hs2 hf
    cases s2 with
    | nil =>
      have h := hf p.2
      rw [List.filter_nil, List.filter_cons_of_pos (by simp)] at h
      exact absurd h (by simp)
    | cons q t2 =>
      by_cases hpq : p.2 = q.2
      · have hpf := hf p.2
        rw [List.filter_cons_of_pos (by simp), List.filter_cons_of_pos (by simp [hpq])] at hpf
        injection hpf with h1 h2
        subst h1
        congr 1
        refine ih hs1.of_cons hs2.of_cons fun c => ?_
        by_cases hc : c = p.2
        · subst hc
          exact h2
        · have h := hf c
          rwa [List.filter_cons_of_neg (by simpa using fun hc2 => hc hc2.symm),
               List.filter_cons_of_neg (by simpa using fun hc2 => hc (hpq ▸ hc2.symm))] at h
      · exfalso
        have h1 := hf p.2
        rw [List.filter_cons_of_pos (by simp),
            List.filter_cons_of_neg (by simpa using fun hc => hpq hc.symm)] at h1
        have hp2 : p ∈ t2 := List.mem_of_mem_filter (h1 ▸ List.mem_cons_self p _)
        have hle1 : p.2 ≤ q.2 := List.rel_of_sorted_cons hs2 p hp2
        have h2 := hf q.2
        rw [List.filter_cons_of_neg (by simpa using hpq),
            List.filter_cons_of_pos (by simp)] at h2
        have hq1 : q ∈ t1 := List.mem_of_mem_filter (h2.symm ▸ List.mem_cons_self q _)
        have hle2 : q.2 ≤ p.2 := List.rel_of_sorted_cons hs1 q hq1
        exact hpq (le_antisymm hle1 hle2)

/-- The stable insertion sort preserves each per-count filter of its input. -/
theorem insertionSort_filter (l : List (String × Nat)) (c : Nat) :
    (List.insertionSort countGE l).filter (fun p => p.2 = c) =
      l.filter (fun p => p.2 = c) := by
  have hpw : (l.filter fun p => p.2 = c).Pairwise countGE := by
    refine List.pairwise_of_forall_mem_list fun x hx y hy => ?_
    have hx2 : x.2 = c := by simpa using (List.mem_filter.mp hx).2
    have hy2 : y.2 = c := by simpa using (List.mem_filter.mp hy).2
    unfold countGE
    rw [hx2, hy2]
  have hsub : List.Sublist (l.filter fun p => p.2 = c) (List.insertionSort countGE l) :=
    List.sublist_insertionSort hpw (List.filter_sublist l)
  have hsub2 : List.Sublist (l.filter fun p => p.2 = c)
      ((List.insertionSort countGE l).filter (fun p => p.2 = c)) := by
    have h := hsub.filter (fun p => decide (p.2 = c))
    rwa [List.filter_eq_self.mpr fun a ha => (List.mem_filter.mp ha).2] at h
  have hperm : List.Perm ((List.insertionSort countGE l).filter (fun p => p.2 = c))
      (l.filter (fun p => p.2 = c)) :=
    (List.perm_insertionSort countGE l).filter _
  exact (hsub2.eq_of_length hperm.length_eq.symm).symm

theorem le_foldl_max (l : List (String × Nat)) (acc : Nat) :
    acc ≤ l.foldl (fun a p => max a p.2) acc := by
  induction l generalizing acc with
  | nil => exact le_refl acc
  | cons q l ih => exact le_trans (le_max_left acc q.2) (ih _)

theorem mem_le_foldl_max (l : List (String × Nat)) (acc : Nat) {p : String × Nat}
    (hp : p ∈ l) : p.2 ≤ l.foldl (fun a q => max a q.2) acc := by
  induction l generalizing acc with
  | nil => cases hp
  | cons q l ih =>
    rcases List.mem_cons.mp hp with rfl | hp'
    · exact le_trans (le_max_right acc p.2) (le_foldl_max l _)
    · exact ih _ hp'

theorem flatMap_ite_mem {α β : Type _} [DecidableEq α] (cs : List α) (c : α) (F : List β)
    (hnd : cs.Nodup) :
    (cs.flatMap fun c' => if c' = c then F else []) = if c ∈ cs then F else [] := by
  induction cs with
  | nil => simp
  | cons a cs ih =>
    rw [List.flatMap_cons]
    rcases List.nodup_cons.mp hnd with ⟨ha, hnd'⟩
    by_cases hac : a = c
    · subst hac
      rw [if_pos rfl, ih hnd', if_neg ha, List.append_nil, if_pos (List.mem_cons_self _ _)]
    · rw [if_neg hac, List.nil_append, ih hnd']
      by_cases hc : c ∈ cs <;> simp [hc, Ne.symm hac]

/-- The grouping formulation preserves each per-count filter of its input. -/
theorem groupDesc_filter (entries : List (String × Nat)) (c : Nat) :
    (groupDesc entries).filter (fun p => p.2 = c) = entries.filter (fun p => p.2 = c) := by
  unfold groupDesc
  rw [List.filter_flatMap]
  have hstep : ∀ c' ∈ (List.range (maxCount entries + 1)).reverse,
      (entries.filter fun p => p.2 = c').filter (fun p => p.2 = c) =
        if c' = c then entries.filter (fun p => p.2 = c) else [] := by
    intro c' _
    by_cases hcc : c' = c
    · subst hcc
      rw [if_pos rfl, List.filter_eq_self.mpr fun a ha => (List.mem_filter.mp ha).2]
    · rw [if_neg hcc]
      refine List.filter_eq_nil_iff.mpr fun a ha => ?_
      have ha2 : a.2 = c' := by simpa using (List.mem_filter.mp ha).2
      simpa [ha2] using hcc
  rw [List.flatMap_congr hstep]
  rw [flatMap_ite_mem _ _ _ (by simp [List.nodup_reverse, List.nodup_range])]
  by_cases hcm : c ≤ maxCount entries
  · rw [if_pos (by simpa using Nat.lt_succ_of_le hcm)]
  · rw [if_neg (by simpa using fun h => hcm (Nat.le_of_lt_succ h))]
    refine (List.filter_eq_nil_iff.mpr fun a ha => ?_).symm
    have := mem_le_foldl_max entries 0 ha
    simp only [decide_eq_true_eq]
    intro hac
    exact hcm (hac ▸ this)

/-- The grouping formulation is sorted by descending count. -/
theorem groupDesc_sorted (entries : List (String × Nat)) :
    List.Sorted countGE (groupDesc entries) := by
  show List.Pairwise countGE _
  unfold groupDesc
  rw [List.pairwise_flatMap]
  constructor
  · intro c _
    refine List.pairwise_of_forall_mem_list fun x hx y hy => ?_
    have hx2 : x.2 = c := by simpa using (List.mem_filter.mp hx).2
    have hy2 : y.2 = c := by simpa using (List.mem_filter.mp hy).2
    unfold countGE
    rw [hx2, hy2]
  · have hlt : ((List.range (maxCount entries + 1)).reverse).Pairwise (· > ·) := by
      rw [List.pairwise_reverse]
      exact List.pairwise_lt_range _
    refine hlt.imp fun {c1 c2} hgt x hx y hy => ?_
    have hx2 : x.2 = c1 := by simpa using (List.mem_filter.mp hx).2
    have hy2 : y.2 = c2 := by simpa using (List.mem_filter.mp hy).2
    unfold countGE
    rw [hx2, hy2]
    exact le_of_lt hgt

/-- The source's stable sort by descending count coincides with the spec's
grouping description. -/
theorem insertionSort_eq_groupDesc (entries : List (String × Nat)) :
    List.insertionSort countGE entries = groupDesc entries :=
  sorted_filter_unique (List.sorted_insertionSort countGE entries) (groupDesc_sorted entries)
    fun c => (insertionSort_filter entries c).trans (groupDesc_filter entries c).symm

/-! ### Progress arithmetic -/

theorem jsRound_mono {q r : ℚ} (h : q ≤ r) : jsRound q ≤ jsRound r :=
  Int.floor_le_floor (by linarith)

theorem jsRound_hundred : jsRound 100 = 100 := by
  norm_num [jsRound]

/-- Monotonicity of the response progress under increasing sequence numbers
with a fixed declared total. -/
theorem respProgress_mono (n n' T : Int) (hT : 1 ≤ T) (hn : 1 ≤ n) (hlt : n < n') :
    respProgress n T ≤ respProgress n' T := by
  unfold respProgress
  by_cases h1 : n' ≤ T
  · rw [max_eq_left (le_trans (le_of_lt hlt) h1), max_eq_left h1]
    apply jsRound_mono
    have hTpos : (0 : ℚ) < (T : ℚ) := by exact_mod_cast lt_of_lt_of_le zero_lt_one hT
    have hnn : (n : ℚ) ≤ (n' : ℚ) := by exact_mod_cast le_of_lt hlt
    have := (div_le_div_right hTpos).mpr hnn
    nlinarith
  · push_neg at h1
    rw [max_eq_right (le_of_lt h1)]
    have hn'pos : (0 : ℚ) < (n' : ℚ) := by
      have h0 : (0 : Int) < n' := by omega
      exact_mod_cast h0
    have hval' : (n' : ℚ) / (n' : ℚ) * 100 = 100 := by
      rw [div_self (ne_of_gt hn'pos)]
      ring
    rw [hval', jsRound_hundred]
    have hM : (n : ℚ) ≤ ((max T n : Int) : ℚ) := by exact_mod_cast le_max_right T n
    have hMpos : (0 : ℚ) < ((max T n : Int) : ℚ) := by
      have h2 : (1 : Int) ≤ max T n := le_trans hT (le_max_left T n)
      exact_mod_cast lt_of_lt_of_le zero_lt_one h2
    have hle : (n : ℚ) / ((max T n : Int) : ℚ) * 100 ≤ 100 := by
      have h3 : (n : ℚ) / ((max T n : Int) : ℚ) ≤ 1 := (div_le_one hMpos).mpr hM
      nlinarith
    have h4 := jsRound_mono hle
    rwa [jsRound_hundred] at h4

/-! ### Validator error characterization -/

/-- A validation failure surfaces as the structured error response with the
state unchanged. -/
theorem processThought_of_validate_error {A : Analytics} {st : ServerState} {input : RawInput}
    {e : String} (h : validateThoughtData input = .error e) :
    processThought A st input = (st, .error e) := by
  unfold processThought
  rw [h]
  rfl

theorem validate_err_thought {input : RawInput} (h : ¬ validStringField input.thought) :
    validateThoughtData input = .error "Invalid thought: must be a string" := by
  unfold validateThoughtData
  cases hT : input.thought with
  | none => rfl
  | some v =>
    cases v with
    | jstr s =>
      by_cases hs : s = ""
      · simp only [if_pos hs]
      · exact absurd ⟨s, hT, hs⟩ h
    | jnum n => rfl
    | jbool b => rfl
    | jnull => rfl

theorem validate_err_thoughtNumber {input : RawInput} (h1 : validStringField input.thought)
    (h : ¬ validNumberField input.thoughtNumber) :
    validateThoughtData input = .error "Invalid thoughtNumber: must be a number" := by
  obtain ⟨s, hTs, hs⟩ := h1
  unfold validateThoughtData
  rw [hTs]
  simp only [if_neg hs]
  cases hN : input.thoughtNumber with
  | none => rfl
  | some v =>
    cases v with
    | jstr s2 => rfl
    | jnum n =>
      by_cases hn : n = 0
      · simp only [if_pos hn]
      · exact absurd ⟨n, hN, hn⟩ h
    | jbool b => rfl
    | jnull => rfl

theorem validate_err_totalThoughts {input : RawInput} (h1 : validStringField input.thought)
    (h2 : validNumberField input.thoughtNumber)
    (h : ¬ validNumberField input.totalThoughts) :
    validateThoughtData input = .error "Invalid totalThoughts: must be a number" := by
  obtain ⟨s, hTs, hs⟩ := h1
  obtain ⟨n, hNs, hn⟩ := h2
  unfold validateThoughtData
  rw [hTs]
  simp only [if_neg hs]
  rw [hNs]
  simp only [if_neg hn]
  cases hM : input.totalThoughts with
  | none => rfl
  | some v =>
    cases v with
    | jstr s2 => rfl
    | jnum m =>
      by_cases hm : m = 0
      · simp only [if_pos hm]
      · exact absurd ⟨m, hM, hm⟩ h
    | jbool b => rfl
    | jnull => rfl

theorem validate_err_nextThoughtNeeded {input : RawInput} (h1 : validStringField input.thought)
    (h2 : validNumberField input.thoughtNumber) (h3 : validNumberField input.totalThoughts)
    (h : ¬ validBoolField input.nextThoughtNeeded) :
    validateThoughtData input = .error "Invalid nextThoughtNeeded: must be a boolean" := by
  obtain ⟨s, hTs, hs⟩ := h1
  obtain ⟨n, hNs, hn⟩ := h2
  obtain ⟨m, hMs, hm⟩ := h3
  unfold validateThoughtData
  rw [hTs]
  simp only [if_neg hs]
  rw [hNs]
  simp only [if_neg hn]
  rw [hMs]
  simp only [if_neg hm]
  cases hB : input.nextThoughtNeeded with
  | none => rfl
  | some v =>
    cases v with
    | jstr s2 => rfl
    | jnum k => rfl
    | jbool b => exact absurd ⟨b, hB⟩ h
    | jnull => rfl

/-! ### Claim theorems -/

/-- C8 (corrected): keyword extraction is a pure, deterministic function of
the text (immediate in this embedding, where `extractKeywords` is a function)
returning at most 5 tokens — but the tie-break is not first-occurrence order:
`Object.entries` enumerates all-digit (array-index) tokens first in ascending
numeric order, so for a text none of whose filtered tokens names an
`Object.prototype` property, the result is the distinct tokens ranked by
descending frequency with ties broken by that enumeration order (index
tokens ascending, then the rest in first-occurrence order). -/
theorem spec_C8 (text : String)
    (hp : ∀ w ∈ filteredWords text, w ∉ protoNames) :
    extractKeywords text = extractKeywordsSpec text ∧
    (extractKeywords text).length ≤ 5 := by
  constructor
  · unfold extractKeywords
    simp only [extractKeywordsSpec]
    rw [wordCounts_eq, insertionSort_eq_groupDesc]
  · unfold extractKeywords
    rw [List.length_map]
    exact List.length_take_le 5 _

/-- Witness for C8: a proto-token-free text on which the extraction equals the
amended description and stays within 5 tokens. -/
theorem spec_C8_witness :
    extractKeywords "apple banana apple" = extractKeywordsSpec "apple banana apple" ∧
    extractKeywords "apple banana apple" = ["apple", "banana"] ∧
    (extractKeywords "apple banana apple").length ≤ 5 :=
  ⟨(spec_C8 "apple banana apple" (by decide)).1, by decide,
   (spec_C8 "apple banana apple" (by decide)).2⟩

/-- Counterexample to C8 as stated: on `"99999 11111"` the source returns the
all-digit tokens in ascending numeric `Object.entries` order, not in the
claimed first-occurrence tie-break order. -/
theorem spec_C8_cex :
    extractKeywords "99999 11111" = ["11111", "99999"] ∧
    extractKeywordsFirstOcc "99999 11111" = ["99999", "11111"] :=
  ⟨by decide, by decide⟩

/-- C1 (corrected): `processThought` never computes a quality assessment — the
stored record keeps the caller-supplied `quality` field (absent unless
supplied), because `assessThoughtQuality` is defined in the source but never
invoked. The function itself, applied to the scenario thought (number 2 of 5,
ten words, no dependencies), does produce depth 3 with a feedback string
containing "more depth" and coherence 3 with the "connects to previous
thinking" feedback, as the claim describes. -/
theorem spec_C1 :
    (∀ (A : Analytics) (st : ServerState) (input : RawInput) (st' : ServerState) (r : OkPayload),
      processThought A st input = (st', Response.ok r) →
        ∃ vd : ThoughtData, st'.thoughtHistory = st.thoughtHistory ++ [vd] ∧
          vd.quality = input.quality) ∧
    ((assessThoughtQuality c1Thought).quality =
        some { coherence := 3, depth := 3, relevance := 5, qualityScore := 4,
               feedback := [connectsFeedback, depthFeedback] } ∧
      (assessThoughtQuality c1Thought).insightValue = some 4 ∧
      depthFeedback = "This thought could be explored in " ++ "more depth" ∧
      connectsFeedback = "Consider how this thought " ++ "connects to previous" ++ " thinking") := by
  constructor
  · intro A st input st' r h
    obtain ⟨vd0, vd, hval, henr, hstore⟩ := processThought_ok h
    obtain ⟨_, _, _, _, hq, _⟩ := henr
    have hv := validateThoughtData_ok hval
    exact ⟨vd, (storeAndRespond_ok hstore).1, hq.trans hv.2.2.2.2.2.2.2.2.2.2.1⟩
  · refine ⟨?_, ?_, rfl, rfl⟩
    · have e1 : (assessThoughtQuality c1Thought).quality =
          some { coherence := 3, depth := 3, relevance := 5,
                 qualityScore := jsRound ((((3 : Int) + 3 + 5 : Int) : ℚ) / 3),
                 feedback := [connectsFeedback, depthFeedback] } := rfl
      have e2 : jsRound ((((3 : Int) + 3 + 5 : Int) : ℚ) / 3) = 4 := by
        norm_num [jsRound]
      rw [e1, e2]
    · have e3 : (assessThoughtQuality c1Thought).insightValue =
          some (jsRound ((((3 : Int) : ℚ) * (4 / 10) + ((3 : Int) : ℚ) * (3 / 10) +
            ((5 : Int) : ℚ) * (3 / 10)) * 1)) := rfl
      have e4 : jsRound ((((3 : Int) : ℚ) * (4 / 10) + ((3 : Int) : ℚ) * (3 / 10) +
          ((5 : Int) : ℚ) * (3 / 10)) * 1) = 4 := by
        norm_num [jsRound]
      rw [e3, e4]

/-- Witness for C1's general part: the scenario submission is accepted and the
stored record carries no quality assessment. -/
theorem spec_C1_witness : c1run.1.thoughtHistory.map (fun t => t.quality) = [none] := by
  obtain ⟨vd, hh, hq⟩ := spec_C1.1 trivialAnalytics initState c1Input c1run.1 c1resp rfl
  rw [hh]
  simp only [initState, List.nil_append, List.map_cons, List.map_nil]
  rw [hq]
  rfl

/-- Counterexample to C1 as stated: the claim-C1 scenario submission succeeds,
yet the stored record has no quality assessment attached (`quality = none`),
so no `quality.depth = 3` is ever computed for it. -/
theorem spec_C1_cex :
    c1run.2.isOk = true ∧
    c1run.1.thoughtHistory.map (fun t => t.quality) = [none] :=
  ⟨by decide, by decide⟩

/-- C2 (corrected): the auto-raise is per record only — the stored record's
`totalThoughts` is `max(declaredTotal, its own thoughtNumber)`, as is the
response's — the store keeps no session-wide running total. -/
theorem spec_C2 (A : Analytics) (st : ServerState) (input : RawInput) (st' : ServerState)
    (r : OkPayload) (n T : Int) (h : processThought A st input = (st', Response.ok r))
    (hn : input.thoughtNumber = some (.jnum n)) (hT : input.totalThoughts = some (.jnum T)) :
    ∃ vd : ThoughtData, st'.thoughtHistory = st.thoughtHistory ++ [vd] ∧
      vd.thoughtNumber = n ∧ vd.totalThoughts = max T n ∧ r.totalThoughts = max T n := by
  obtain ⟨vd0, vd, hval, henr, hstore⟩ := processThought_ok h
  have hv := validateThoughtData_ok hval
  have hn0 : vd0.thoughtNumber = n := by simpa using hv.2.1.1.symm.trans hn
  have hT0 : vd0.totalThoughts = T := by simpa using hv.2.2.1.1.symm.trans hT
  obtain ⟨_, hnum, htot, _⟩ := henr
  obtain ⟨hhist, _, _, hr⟩ := storeAndRespond_ok hstore
  refine ⟨vd, hhist, ?_, ?_, ?_⟩
  · rw [hnum, hn0]
  · rw [htot, hT0, hn0]
  · rw [hr]
    show vd.totalThoughts = max T n
    rw [htot, hT0, hn0]

/-- Witness for C2's amended per-record fact: declaring total 2 for thought 5
yields response total `max 2 5 = 5`. -/
theorem spec_C2_witness : c2wresp.totalThoughts = 5 := by
  obtain ⟨vd, _, _, _, hr⟩ :=
    spec_C2 trivialAnalytics initState c2wInput c2wrun.1 c2wresp 5 2 rfl rfl rfl
  exact hr.trans (by decide)

/-- Counterexample to C2 as stated: after accepting thought 5 (total 5) and
then thought 2 (total 2), the running declared total 2 is below the maximum
sequence number 5 seen in the session, and the totals 5, 2 are not
monotone. -/
theorem spec_C2_cex :
    sessionTotalsDominate c2st2.thoughtHistory = false ∧
    totalsMonotone c2st2.thoughtHistory = false ∧
    c2st2.thoughtHistory.map (fun t => (t.thoughtNumber, t.totalThoughts)) = [(5, 5), (2, 2)] :=
  ⟨by decide, by decide, by decide⟩

/-- C3 (confirmed): for every input whose required field is missing, mistyped
or falsy, `processThought` returns the structured `status: "failed"` error
naming the first failing field in validation order, with the state unchanged;
the call never throws past the boundary (in this embedding `processThought` is
a total function and every `throw` is caught into the error response). -/
theorem spec_C3 (A : Analytics) (st : ServerState) (input : RawInput) :
    (¬ validStringField input.thought →
      processThought A st input = (st, Response.error "Invalid thought: must be a string")) ∧
    (validStringField input.thought → ¬ validNumberField input.thoughtNumber →
      processThought A st input = (st, Response.error "Invalid thoughtNumber: must be a number")) ∧
    (validStringField input.thought → validNumberField input.thoughtNumber →
      ¬ validNumberField input.totalThoughts →
      processThought A st input = (st, Response.error "Invalid totalThoughts: must be a number")) ∧
    (validStringField input.thought → validNumberField input.thoughtNumber →
      validNumberField input.totalThoughts → ¬ validBoolField input.nextThoughtNeeded →
      processThought A st input =
        (st, Response.error "Invalid nextThoughtNeeded: must be a boolean")) :=
  ⟨fun h => processThought_of_validate_error (validate_err_thought h),
   fun h1 h => processThought_of_validate_error (validate_err_thoughtNumber h1 h),
   fun h1 h2 h => processThought_of_validate_error (validate_err_totalThoughts h1 h2 h),
   fun h1 h2 h3 h => processThought_of_validate_error (validate_err_nextThoughtNeeded h1 h2 h3 h)⟩

/-- Witness for C3 at concrete inputs: a missing `thought`, a mistyped
`thoughtNumber`, a falsy `totalThoughts` and the scenario's omitted
`nextThoughtNeeded` each produce the structured error naming that field. -/
theorem spec_C3_witness :
    processThought trivialAnalytics initState c3InA =
      (initState, Response.error "Invalid thought: must be a string") ∧
    processThought trivialAnalytics initState c3InB =
      (initState, Response.error "Invalid thoughtNumber: must be a number") ∧
    processThought trivialAnalytics initState c3InC =
      (initState, Response.error "Invalid totalThoughts: must be a number") ∧
    processThought trivialAnalytics initState c3InD =
      (initState, Response.error "Invalid nextThoughtNeeded: must be a boolean") := by
  refine ⟨(spec_C3 trivialAnalytics initState c3InA).1 ?_,
          (spec_C3 trivialAnalytics initState c3InB).2.1 ?_ ?_,
          (spec_C3 trivialAnalytics initState c3InC).2.2.1 ?_ ?_ ?_,
          (spec_C3 trivialAnalytics initState c3InD).2.2.2 ?_ ?_ ?_ ?_⟩
  · rintro ⟨s, hs, _⟩
    exact Option.noConfusion hs
  · exact ⟨"valid thought", rfl, by decide⟩
  · rintro ⟨n, hn, _⟩
    injection hn with h2
    exact JPrim.noConfusion h2
  · exact ⟨"valid thought", rfl, by decide⟩
  · exact ⟨2, rfl, by decide⟩
  · rintro ⟨m, hm, hm0⟩
    injection hm with h2
    injection h2 with h3
    exact hm0 h3.symm
  · exact ⟨"valid thought", rfl, by decide⟩
  · exact ⟨2, rfl, by decide⟩
  · exact ⟨5, rfl, by decide⟩
  · rintro ⟨b, hb⟩
    exact Option.noConfusion hb

/-- C4 (corrected): submission processing is not atomic. A throw before the
history append — validation or any analytics stage — is caught with the state
exactly as before the call; but a throw after the append (the branch bucket's
prototype-chain `TypeError`, the renderer's `TypeError`, the progress bar's
`RangeError`) is caught with the record already persisted, so an error
response leaves the state either untouched or with exactly the failed record
appended to the history. -/
theorem spec_C4 :
    (∀ (A : Analytics) (st : ServerState) (input : RawInput) (e : String),
      (validateThoughtData input).bind (enrichThought A st) = Except.error e →
        processThought A st input = (st, Response.error e)) ∧
    (∀ (A : Analytics) (st : ServerState) (input : RawInput) (st' : ServerState) (e : String),
      processThought A st input = (st', Response.error e) →
        st' = st ∨ ∃ vd : ThoughtData,
          st'.thoughtHistory = st.thoughtHistory ++ [vd] ∧
          st'.promptMetadata = st.promptMetadata) := by
  constructor
  · intro A st input e hbind
    unfold processThought
    rw [hbind]
  · intro A st input st' e h
    unfold processThought at h
    split at h
    next vd heq =>
      have h1 : (storeAndRespond st vd).1 = st' := congrArg Prod.fst h
      refine Or.inr ⟨vd, ?_, ?_⟩
      · rw [← h1]
        exact (storeAndRespond_history st vd).1
      · rw [← h1]
        exact (storeAndRespond_history st vd).2
    next e2 heq =>
      injection h with h1 h2
      exact Or.inl h1.symm

/-- Witness for both parts of C4 at concrete inputs: an analytics throw on a
valid submission leaves the non-empty state untouched, while a
prototype-named `branchId` produces an error response with the record
nevertheless stored. -/
theorem spec_C4_witness :
    processThought throwingAnalytics c2st1 c4Input =
      (c2st1, Response.error "contradiction stage failure") ∧
    c4pRun.1.thoughtHistory.length = initState.thoughtHistory.length + 1 := by
  constructor
  · exact spec_C4.1 throwingAnalytics c2st1 c4Input "contradiction stage failure" rfl
  · rcases spec_C4.2 trivialAnalytics initState c4pInput c4pRun.1
        "TypeError: this.branches[validatedInput.branchId].push is not a function"
        (by decide) with heq | ⟨vd, hh, _⟩
    · exact absurd (congrArg (fun s => s.thoughtHistory.length) heq) (by decide)
    · rw [hh]
      simp

/-- Counterexample to C4 as stated: the prototype-named branch id makes the
bucket update throw after the history append, so `processThought` answers
with an error response while the record is stored — the history is not as it
was before the call. -/
theorem spec_C4_cex :
    c4pRun.2 = Response.error
      "TypeError: this.branches[validatedInput.branchId].push is not a function" ∧
    c4pRun.1.thoughtHistory.map (fun t => (t.thought, t.branchId)) =
      [("branch clash probe", some "constructor")] ∧
    initState.thoughtHistory = [] ∧
    c4pRun.1.branches = [] :=
  ⟨by decide, by decide, rfl, by decide⟩

/-- C5 (confirmed): for every valid submission the response's `totalThoughts`
is `max(declaredTotal, thoughtNumber)`, hence at least the submitted
`thoughtNumber`. -/
theorem spec_C5 (A : Analytics) (st : ServerState) (input : RawInput) (st' : ServerState)
    (r : OkPayload) (n T : Int) (h : processThought A st input = (st', Response.ok r))
    (hn : input.thoughtNumber = some (.jnum n)) (hT : input.totalThoughts = some (.jnum T)) :
    r.thoughtNumber = n ∧ r.totalThoughts = max T n ∧ n ≤ r.totalThoughts := by
  obtain ⟨vd0, vd, hval, henr, hstore⟩ := processThought_ok h
  have hv := validateThoughtData_ok hval
  have hn0 : vd0.thoughtNumber = n := by simpa using hv.2.1.1.symm.trans hn
  have hT0 : vd0.totalThoughts = T := by simpa using hv.2.2.1.1.symm.trans hT
  obtain ⟨_, hnum, htot, _⟩ := henr
  obtain ⟨_, _, _, hr⟩ := storeAndRespond_ok hstore
  subst hr
  refine ⟨?_, ?_, ?_⟩
  · show vd.thoughtNumber = n
    rw [hnum, hn0]
  · show vd.totalThoughts = max T n
    rw [htot, hT0, hn0]
  · show n ≤ vd.totalThoughts
    rw [htot, hT0, hn0]
    exact le_max_right T n

/-- Witness for C5 at the scenario input: thought 6 with declared total 5 is
answered with `totalThoughts = 6`. -/
theorem spec_C5_witness : c5resp.totalThoughts = 6 ∧ c5resp.thoughtNumber = 6 := by
  obtain ⟨h1, h2, _⟩ :=
    spec_C5 trivialAnalytics initState c5Input c5run.1 c5resp 6 5 rfl rfl rfl
  exact ⟨h2.trans (by decide), h1⟩

/-- C6 (corrected): a record is bucketed only when `branchFromThought` and
`branchId` are both set and truthy, and only when the bucket update does not
throw. On a success response the record was appended to exactly the bucket
keyed by its `branchId` (all other buckets unchanged), in addition to the
main history, and the response's `branches` list contains that id. But for a
truthy `branchId` naming an `Object.prototype` property with no existing
bucket, the update throws after the history append: the record is stored in
the history and in no bucket, and the submission is answered with an error. -/
theorem spec_C6 :
    (∀ (A : Analytics) (st : ServerState) (input : RawInput) (st' : ServerState)
        (r : OkPayload) (f : Int) (b : String),
      processThought A st input = (st', Response.ok r) →
      input.branchFromThought = some f → f ≠ 0 → input.branchId = some b → b ≠ "" →
      ∃ vd : ThoughtData, st'.thoughtHistory = st.thoughtHistory ++ [vd] ∧
        vd.branchId = some b ∧
        branchLookup st'.branches b = some ((branchLookup st.branches b).getD [] ++ [vd]) ∧
        (∀ b', b' ≠ b → branchLookup st'.branches b' = branchLookup st.branches b') ∧
        b ∈ r.branches) ∧
    (∀ (st : ServerState) (vd : ThoughtData) (f : Int) (b : String),
      vd.branchFromThought = some f → f ≠ 0 → vd.branchId = some b →
      b ∈ protoNames → branchLookup st.branches b = none →
      storeAndRespond st vd =
        ({ st with thoughtHistory := st.thoughtHistory ++ [vd] },
         Response.error
           "TypeError: this.branches[validatedInput.branchId].push is not a function")) := by
  constructor
  · intro A st input st' r f b h hf hf0 hb hbe
    obtain ⟨vd0, vd, hval, henr, hstore⟩ := processThought_ok h
    have hv := validateThoughtData_ok hval
    obtain ⟨_, _, _, _, _, _, hbf, hbi, _⟩ := henr
    have hbf' : vd.branchFromThought = some f := by
      rw [hbf, hv.2.2.2.2.2.1, hf]
    have hbi' : vd.branchId = some b := by
      rw [hbi, hv.2.2.2.2.2.2.1, hb]
    obtain ⟨hhist, hbr, _, hr⟩ := storeAndRespond_ok hstore
    rw [hbf', hbi'] at hbr
    have hbr2 : st'.branches = branchAppend st.branches b vd := by
      rw [hbr]
      simp [hf0, hbe]
    refine ⟨vd, hhist, hbi', ?_, ?_, ?_⟩
    · rw [hbr2]
      exact branchLookup_branchAppend_self st.branches b vd
    · intro b' hne
      rw [hbr2]
      exact branchLookup_branchAppend_other st.branches b b' vd hne
    · rw [hr]
      show b ∈ (jsEntries st'.branches).map (·.1)
      have hmem : b ∈ (branchAppend st.branches b vd).map (·.1) :=
        mem_keys_branchAppend st.branches b vd
      obtain ⟨p, hp, hpb⟩ := List.mem_map.mp hmem
      exact List.mem_map.mpr ⟨p, (mem_jsEntries st'.branches p).mpr (hbr2 ▸ hp), hpb⟩
  · intro st vd f b hbf hf0 hbi hproto hnone
    have hbe : b ≠ "" := fun hc => absurd (hc ▸ hproto) (by decide)
    have hany : (st.branches.any fun p => p.1 = b) = false :=
      (branchLookup_none_iff st.branches b).mp hnone
    have hex : branchAppendEx st.branches b vd =
        .error "TypeError: this.branches[validatedInput.branchId].push is not a function" := by
      unfold branchAppendEx
      rw [hany]
      rw [if_neg (by simp), if_pos (by simpa using hproto)]
    simp only [storeAndRespond, hbf, hbi]
    rw [if_pos ⟨hf0, hbe⟩]
    rw [show ({ st with thoughtHistory := st.thoughtHistory ++ [vd] } :
        ServerState).branches = st.branches from rfl]
    rw [hex]

/-- Witness for both parts of C6: the scenario input (`branchFromThought = 2`,
`branchId = "alt"`) yields a response whose branches include `"alt"`, and the
prototype-named id `"constructor"` makes the storage stage answer with the
error while the record enters the history. -/
theorem spec_C6_witness :
    "alt" ∈ c6gresp.branches ∧
    storeAndRespond initState c6pThought =
      ({ initState with thoughtHistory := initState.thoughtHistory ++ [c6pThought] },
       Response.error
         "TypeError: this.branches[validatedInput.branchId].push is not a function") := by
  constructor
  · obtain ⟨vd, _, _, _, _, hmem⟩ :=
      spec_C6.1 trivialAnalytics initState c6GoodInput c6grun.1 c6gresp 2 "alt" rfl rfl
        (by decide) rfl (by decide)
    exact hmem
  · exact spec_C6.2 initState c6pThought 2 "constructor" rfl (by decide) rfl (by decide)
      (by decide)

/-- Counterexample to C6 as stated: a valid submission with `branchId = "alt"`
but no `branchFromThought` is stored in the history with its branch id, yet
the branch index stays empty — the record appears in no bucket, not exactly
one. -/
theorem spec_C6_cex :
    inExactlyOneBucket c6BadState = false ∧
    c6BadState.thoughtHistory.map (fun t => t.branchId) = [some "alt"] ∧
    c6BadState.branches = [] :=
  ⟨by decide, by decide, by decide⟩

/-- C7 (corrected): `processThought` stores every record with exactly the
caller-declared dependency list — `detectSemanticRelationships` is defined in
the source but never invoked. The function itself, when applied, does append
the sequence number of every prior thought sharing at least two keywords that
is not already a declared dependency, as the claim describes. -/
theorem spec_C7 :
    (∀ (A : Analytics) (st : ServerState) (input : RawInput) (st' : ServerState) (r : OkPayload),
      processThought A st input = (st', Response.ok r) →
        ∃ vd : ThoughtData, st'.thoughtHistory = st.thoughtHistory ++ [vd] ∧
          vd.dependencies = input.dependencies) ∧
    (∀ (hist : List ThoughtData) (t prev : ThoughtData) (pk : List String),
      2 ≤ hist.length → prev ∈ hist → prev.keywords = some pk →
      2 ≤ (pk.filter fun kw => (extractKeywords t.thought).contains kw).length →
      (t.dependencies.getD []).contains prev.thoughtNumber = false →
      prev.thoughtNumber ∈ ((detectSemanticRelationships hist t).dependencies.getD [])) := by
  constructor
  · intro A st input st' r h
    obtain ⟨vd0, vd, hval, henr, hstore⟩ := processThought_ok h
    obtain ⟨_, _, _, _, _, hdep, _⟩ := henr
    have hv := validateThoughtData_ok hval
    exact ⟨vd, (storeAndRespond_ok hstore).1, hdep.trans hv.2.2.2.2.2.2.2.2.1⟩
  · intro hist t prev pk hlen hprev hpk hover hdep
    unfold detectSemanticRelationships
    rw [if_neg (by omega)]
    have hm : prev.thoughtNumber ∈ (hist.filter fun previous =>
        match previous.keywords with
        | none => false
        | some pk2 =>
          2 ≤ (pk2.filter fun kw => (extractKeywords t.thought).contains kw).length ∧
            ¬ (t.dependencies.getD []).contains previous.thoughtNumber).map
          (fun p => p.thoughtNumber) := by
      refine List.mem_map.mpr ⟨prev, List.mem_filter.mpr ⟨hprev, ?_⟩, rfl⟩
      rw [hpk]
      simp only [decide_eq_true_eq]
      exact ⟨hover, by rw [hdep]; exact Bool.false_ne_true⟩
    rw [if_pos (List.length_pos_of_mem hm)]
    exact List.mem_append.mpr (Or.inr hm)

/-- Witness for C7: the three-submission run stores all records with empty
dependencies, and the unreached `detectSemanticRelationships`, applied to a
history of two keyword-annotated thoughts, does append the overlapping prior
thought's number. -/
theorem spec_C7_witness :
    c7st.thoughtHistory.map (fun t => t.dependencies) = [none, none, none] ∧
    (1 : Int) ∈ ((detectSemanticRelationships [c7prev, c7prev2] c7new).dependencies.getD []) := by
  constructor
  · obtain ⟨vd, hh, hdeps⟩ := spec_C7.1 trivialAnalytics c7stB c7In3 c7st c7resp rfl
    rw [hh, List.map_append]
    rw [show c7stB.thoughtHistory.map (fun t => t.dependencies) = [none, none] from by decide]
    simp [hdeps, c7In3]
  · exact spec_C7.2 [c7prev, c7prev2] c7new c7prev ["apple", "banana"] (by decide)
      (by decide) rfl (by decide) (by decide)

/-- Counterexample to C7 as stated: in the stored history, the third thought
shares the two extracted keywords `apple`, `banana` with the first, has no
declared dependency on it, and yet its stored dependency set is empty — the
semantic link is never appended. -/
theorem spec_C7_cex :
    semanticLinksRecorded c7st.thoughtHistory = false ∧
    c7st.thoughtHistory.map (fun t => t.keywords) =
      [some ["apple", "banana"], some ["lemon", "melon"], some ["apple", "banana"]] ∧
    c7st.thoughtHistory.map (fun t => t.dependencies) = [none, none, none] :=
  ⟨by decide, by decide, by decide⟩

/-- C9 (confirmed): the response's progress string is
`round(100 * thoughtNumber / totalThoughts)` (on the auto-adjusted total) with
a percent sign; it is monotone non-decreasing for increasing sequence numbers
under a stable declared total; and the scenario — thought 1 of 5 — succeeds
with phase Planning and progress "20%". -/
theorem spec_C9 :
    (∀ (A : Analytics) (st : ServerState) (input : RawInput) (st' : ServerState) (r : OkPayload)
        (n T : Int), processThought A st input = (st', Response.ok r) →
        input.thoughtNumber = some (.jnum n) → input.totalThoughts = some (.jnum T) →
        r.progress = toString (respProgress n T) ++ "%") ∧
    (∀ n n' T : Int, 1 ≤ T → 1 ≤ n → n < n' → respProgress n T ≤ respProgress n' T) ∧
    (c9run.2 = Response.ok c9resp ∧ c9resp.progress = "20%" ∧
      c9resp.phase = some Phase.Planning) := by
  refine ⟨?_, respProgress_mono, rfl, ?_, rfl⟩
  · intro A st input st' r n T h hn hT
    obtain ⟨vd0, vd, hval, henr, hstore⟩ := processThought_ok h
    have hv := validateThoughtData_ok hval
    have hn0 : vd0.thoughtNumber = n := by simpa using hv.2.1.1.symm.trans hn
    have hT0 : vd0.totalThoughts = T := by simpa using hv.2.2.1.1.symm.trans hT
    obtain ⟨_, hnum, htot, _⟩ := henr
    obtain ⟨_, _, _, hr⟩ := storeAndRespond_ok hstore
    rw [hr]
    show toString (jsRound ((vd.thoughtNumber : ℚ) / (vd.totalThoughts : ℚ) * 100)) ++ "%" =
      toString (respProgress n T) ++ "%"
    rw [hnum, htot, hn0, hT0]
    rfl
  · have e1 : c9resp.progress =
        toString (jsRound (((1 : Int) : ℚ) / ((5 : Int) : ℚ) * 100)) ++ "%" := rfl
    have e2 : jsRound (((1 : Int) : ℚ) / ((5 : Int) : ℚ) * 100) = 20 := by
      norm_num [jsRound]
    rw [e1, e2]
    rfl

/-- Witness for C9's general parts at concrete inputs. -/
theorem spec_C9_witness :
    c9resp.progress = toString (respProgress 1 5) ++ "%" ∧
    respProgress 1 5 ≤ respProgress 2 5 :=
  ⟨spec_C9.1 trivialAnalytics initState c9Input c9run.1 c9resp 1 5 rfl rfl rfl,
   spec_C9.2.1 1 2 5 (by norm_num) (by norm_num) (by norm_num)⟩

/-- C10 (confirmed): when the caller omits `complexity`, the response's
complexity is `estimateComplexity` of the state after the record is stored:
complex when more than 10 thoughts are stored or more than 2 branches exist,
else medium when more than 5 thoughts, more than 1 revision, or at least one
branch exists, else simple. -/
theorem spec_C10 (A : Analytics) (st : ServerState) (input : RawInput) (st' : ServerState)
    (r : OkPayload) (h : processThought A st input = (st', Response.ok r))
    (hc : input.complexity = none) :
    r.complexity = estimateComplexity st' ∧
    estimateComplexity st' =
      (if 10 < st'.thoughtHistory.length ∨ 2 < st'.branches.length then Complexity.complex
       else if 5 < st'.thoughtHistory.length ∨
           1 < (st'.thoughtHistory.filter fun t => t.isRevision = some true).length ∨
           0 < st'.branches.length then Complexity.medium
       else Complexity.simple) := by
  constructor
  · obtain ⟨vd0, vd, hval, henr, hstore⟩ := processThought_ok h
    have hv := validateThoughtData_ok hval
    obtain ⟨_, _, _, _, _, _, _, _, _, hcomp, _⟩ := henr
    have hc0 : vd.complexity = none := by
      rw [hcomp, hv.2.2.2.2.2.2.2.2.2.1, hc]
    obtain ⟨_, _, _, hr⟩ := storeAndRespond_ok hstore
    rw [hr]
    show vd.complexity.getD (estimateComplexity st') = estimateComplexity st'
    rw [hc0]
    rfl
  · rfl

/-- Witness for C10: a first submission without `complexity` is answered with
the estimate for the post-storage state, here `simple`. -/
theorem spec_C10_witness : c10resp.complexity = Complexity.simple := by
  obtain ⟨h1, _⟩ := spec_C10 trivialAnalytics initState c10Input c10run.1 c10resp rfl rfl
  exact h1.trans (by decide)

end STS
